import Mathlib

/-!
# Mayo: scene registry (`GuiDocument`) and observable properties

A shallow embedding of `src/gui_document.cpp`, `src/property_builtins.h` and the
property initialisation of `src/gpx_mesh_item.cpp`.

* Pointers to `DocumentItem` are addresses (`Nat`); what lives behind an address
  (its dynamic type, the bounding box of the AIS object built from it, the face
  owners of that object) is read from a `World`.
* A pointer that may be null is an `Option`; dereferencing a null pointer is the
  fault `Fault.nullDereference`.
* Calls into the viewer (display, erase, signal emission, destruction of a proxy)
  are recorded in the state, oldest first.
-/

namespace Mayo

/-! ## Scene registry -/

/-- Address of a `DocumentItem`. -/
abbrev DocumentItem := Nat

/-- Dynamic type of a `DocumentItem`, as tested by `sameType<ITEM>(item)`. -/
inductive ItemKind where
  | xdeDocumentItem
  | meshItem
  | other (tag : Nat)
  deriving DecidableEq, Repr

/-- Outcome of an operation whose behaviour is not defined by the language. -/
inductive Fault where
  | nullDereference
  deriving DecidableEq, Repr

deriving instance DecidableEq for Except

/-- An entry of `SelectMgr_IndexedMapOfOwner`: `brepShape` is `some shape` when
`Handle_StdSelect_BRepOwner::DownCast` succeeds on the owner. -/
structure EntityOwner where
  handle : Nat
  brepShape : Option Nat
  deriving DecidableEq, Repr

/-- The AIS object created by a proxy constructor: its address, the item it was
built from and the box `BndUtils::get` reads from it. -/
structure AisObject (Box : Type) where
  addr : Nat
  source : DocumentItem
  box : Box
  deriving DecidableEq, Repr

/-- The two proxy classes of `createGpxForItem`. -/
inductive GpxVariant where
  | gpxXdeDocumentItem
  | gpxMeshItem
  deriving DecidableEq, Repr

/-- A `GpxDocumentItem` object. -/
structure GpxDocumentItem (Box : Type) where
  variant : GpxVariant
  item : DocumentItem
  m_hndGpxObject : AisObject Box
  deriving DecidableEq, Repr

/-- What the registry reads from its collaborators. `voidBox` is a `Bnd_Box`
after `SetVoid()` (also the default-constructed box), `add` is `BndUtils::add`,
`dynType` the dynamic type of an item, `aisBox` the bounding box of the AIS
object a proxy builds from an item, `faceOwners` the result of
`AIS_InteractiveContext::EntityOwners` in face selection mode. -/
structure World (Box : Type) where
  voidBox : Box
  add : Box → Box → Box
  dynType : DocumentItem → ItemKind
  aisBox : DocumentItem → Box
  faceOwners : DocumentItem → List EntityOwner

/-- The function `sameType<ITEM>(item)`. -/
def sameType {Box : Type} (w : World Box) (kind : ItemKind) (item : DocumentItem) : Bool :=
  decide (w.dynType item = kind)

/-- The expression `new GPX_ITEM(static_cast<ITEM*>(item))`; `addr` is the address
the allocation returns. -/
def GpxDocumentItem.new {Box : Type} (w : World Box) (variant : GpxVariant) (addr : Nat)
    (item : DocumentItem) : GpxDocumentItem Box :=
  { variant := variant, item := item,
    m_hndGpxObject := { addr := addr, source := item, box := w.aisBox item } }

/-- The accessor `GpxDocumentItem::handleGpxObject`. -/
def GpxDocumentItem.handleGpxObject {Box : Type} (gpx : GpxDocumentItem Box) : AisObject Box :=
  gpx.m_hndGpxObject

/-- The function `BndUtils::get(aisObject)`. -/
def BndUtils.get {Box : Type} (obj : AisObject Box) : Box :=
  obj.box

/-- The function `Internal::createGpxIfItemOfType<ITEM, GPX_ITEM>`: the updated
`*gpx` and the returned flag. -/
def Internal.createGpxIfItemOfType {Box : Type} (w : World Box) (kind : ItemKind)
    (variant : GpxVariant) (addr : Nat) (gpx : Option (GpxDocumentItem Box))
    (item : DocumentItem) : Option (GpxDocumentItem Box) × Bool :=
  if gpx.isNone && sameType w kind item then
    (some (GpxDocumentItem.new w variant addr item), true)
  else
    (gpx, false)

/-- The function `Internal::createGpxForItem`. -/
def Internal.createGpxForItem {Box : Type} (w : World Box) (addr : Nat)
    (item : DocumentItem) : Option (GpxDocumentItem Box) :=
  let gpx : Option (GpxDocumentItem Box) := none
  let gpx := (Internal.createGpxIfItemOfType w .xdeDocumentItem .gpxXdeDocumentItem addr gpx item).1
  let gpx := (Internal.createGpxIfItemOfType w .meshItem .gpxMeshItem addr gpx item).1
  gpx

/-- The struct `GuiDocument::GuiDocumentItem`. -/
structure GuiDocumentItem (Box : Type) where
  docItem : DocumentItem
  gpxDocItem : Option (GpxDocumentItem Box)
  vecGpxEntityOwner : List EntityOwner
  deriving DecidableEq, Repr

/-- Selection modes activated by `onItemAdded` (`AIS_Shape::SelectionMode`). -/
inductive SelectionMode where
  | vertex
  | edge
  | face
  deriving DecidableEq, Repr

/-- The part of `AIS_InteractiveContext` the registry drives. -/
structure AisContext (Box : Type) where
  displayed : List (AisObject Box)
  activated : List (AisObject Box × SelectionMode)
  selected : List Nat
  deriving DecidableEq, Repr

/-- The state of a `GuiDocument`. `emitted` lists the arguments of the
`gpxBoundingBoxChanged` emissions, `destroyed` the proxies passed to `delete`,
`fitAllCalls` counts `GpxUtils::V3dView_fitAll`, `allocated` counts the proxies
created so far (the next allocation returns this address). -/
structure GuiDocument (Box : Type) where
  m_vecGuiDocumentItem : List (GuiDocumentItem Box)
  m_gpxBoundingBox : Box
  m_aisContext : AisContext Box
  emitted : List Box
  destroyed : List (GpxDocumentItem Box)
  fitAllCalls : Nat
  allocated : Nat
  deriving DecidableEq, Repr

/-- A freshly constructed `GuiDocument`: no entries, default-constructed box. -/
def GuiDocument.init {Box : Type} (w : World Box) : GuiDocument Box :=
  { m_vecGuiDocumentItem := [], m_gpxBoundingBox := w.voidBox,
    m_aisContext := { displayed := [], activated := [], selected := [] },
    emitted := [], destroyed := [], fitAllCalls := 0, allocated := 0 }

/-- The accessor `GuiDocument::gpxBoundingBox`. -/
def GuiDocument.gpxBoundingBox {Box : Type} (s : GuiDocument Box) : Box :=
  s.m_gpxBoundingBox

/-- The call `m_aisContext->Display(aisObject, true)`. -/
def AisContext.Display {Box : Type} (c : AisContext Box) (obj : AisObject Box) : AisContext Box :=
  { c with displayed := c.displayed ++ [obj] }

/-- The call `m_aisContext->Activate(aisObject, mode)`. -/
def AisContext.Activate {Box : Type} (c : AisContext Box) (obj : AisObject Box)
    (mode : SelectionMode) : AisContext Box :=
  { c with activated := c.activated ++ [(obj, mode)] }

/-- Modelled from the spec: `GpxUtils::AisContext_eraseObject` (gpx_utils.h is not
among the sources) removes the representation from display. -/
def GpxUtils.AisContext_eraseObject {Box : Type} [DecidableEq Box] (c : AisContext Box)
    (obj : AisObject Box) : AisContext Box :=
  { c with displayed := c.displayed.erase obj,
           activated := c.activated.filter (fun p => !decide (p.1 = obj)) }

/-- The slot `GuiDocument::onItemAdded`. -/
def GuiDocument.onItemAdded {Box : Type} (w : World Box) (s : GuiDocument Box)
    (item : DocumentItem) : Except Fault (GuiDocument Box) :=
  let guiItem : GuiDocumentItem Box :=
    { docItem := item, gpxDocItem := Internal.createGpxForItem w s.allocated item,
      vecGpxEntityOwner := [] }
  match guiItem.gpxDocItem with
  | none => .error .nullDereference
  | some gpx =>
    let aisObject := gpx.handleGpxObject
    let ctx := s.m_aisContext.Display aisObject
    let ctxItem : AisContext Box × GuiDocumentItem Box :=
      if sameType w .xdeDocumentItem item then
        let ctx := ctx.Activate aisObject .vertex
        let ctx := ctx.Activate aisObject .edge
        let ctx := ctx.Activate aisObject .face
        (ctx, { guiItem with vecGpxEntityOwner := w.faceOwners aisObject.source })
      else
        (ctx, guiItem)
    let box := w.add s.m_gpxBoundingBox (BndUtils.get aisObject)
    .ok { s with
          allocated := s.allocated + 1
          m_aisContext := ctxItem.1
          m_vecGuiDocumentItem := s.m_vecGuiDocumentItem ++ [ctxItem.2]
          fitAllCalls := s.fitAllCalls + 1
          m_gpxBoundingBox := box
          emitted := s.emitted ++ [box] }

/-- The loop of `onItemErased` that recomputes the bounding box: every remaining
entry's proxy is dereferenced. -/
def GuiDocument.recomputeBox {Box : Type} (w : World Box) :
    Box → List (GuiDocumentItem Box) → Except Fault Box
  | box, [] => .ok box
  | box, guiItem :: rest =>
    match guiItem.gpxDocItem with
    | none => .error .nullDereference
    | some gpx => GuiDocument.recomputeBox w (w.add box (BndUtils.get gpx.handleGpxObject)) rest

/-- The slot `GuiDocument::onItemErased`. -/
def GuiDocument.onItemErased {Box : Type} [DecidableEq Box] (w : World Box)
    (s : GuiDocument Box) (item : DocumentItem) : Except Fault (GuiDocument Box) :=
  match s.m_vecGuiDocumentItem.find? (fun guiItem => decide (guiItem.docItem = item)) with
  | none => .ok s
  | some found =>
    match found.gpxDocItem with
    | none => .error .nullDereference
    | some gpxDocItem =>
      let ctx := GpxUtils.AisContext_eraseObject s.m_aisContext gpxDocItem.handleGpxObject
      let vec := s.m_vecGuiDocumentItem.eraseP (fun guiItem => decide (guiItem.docItem = item))
      match GuiDocument.recomputeBox w w.voidBox vec with
      | .error e => .error e
      | .ok box =>
        .ok { s with
              m_aisContext := ctx
              destroyed := s.destroyed ++ [gpxDocItem]
              m_vecGuiDocumentItem := vec
              m_gpxBoundingBox := box
              emitted := s.emitted ++ [box] }

/-- The signals of `Document` connected in the `GuiDocument` constructor. -/
inductive DocumentSignal where
  | itemAdded (item : DocumentItem)
  | itemErased (item : DocumentItem)
  deriving DecidableEq, Repr

/-- Delivery of one `Document` signal to its connected slot. -/
def GuiDocument.deliver {Box : Type} [DecidableEq Box] (w : World Box) (s : GuiDocument Box) :
    DocumentSignal → Except Fault (GuiDocument Box)
  | .itemAdded item => GuiDocument.onItemAdded w s item
  | .itemErased item => GuiDocument.onItemErased w s item

/-- Delivery of a finite sequence of `Document` signals, stopping at a fault. -/
def GuiDocument.run {Box : Type} [DecidableEq Box] (w : World Box) :
    GuiDocument Box → List DocumentSignal → Except Fault (GuiDocument Box)
  | s, [] => .ok s
  | s, sig :: rest =>
    match GuiDocument.deliver w s sig with
    | .error e => .error e
    | .ok s1 => GuiDocument.run w s1 rest

/-- An item for which `createGpxForItem` has a proxy class. -/
def World.supported {Box : Type} (w : World Box) (item : DocumentItem) : Prop :=
  w.dynType item = .xdeDocumentItem ∨ w.dynType item = .meshItem

/-- Every `itemAdded` signal of the sequence carries a supported item. -/
def World.supportedSignals {Box : Type} (w : World Box) (sigs : List DocumentSignal) : Prop :=
  ∀ item, DocumentSignal.itemAdded item ∈ sigs → w.supported item

/-- The union of the bounds of the entries: `BndUtils::add` folded from a void
box over the boxes of the entries' AIS objects, in entry order. -/
def GuiDocument.unionOfBounds {Box : Type} (w : World Box) (vec : List (GuiDocumentItem Box)) : Box :=
  ((vec.filterMap (fun guiItem => guiItem.gpxDocItem)).map
    (fun gpx => BndUtils.get gpx.handleGpxObject)).foldl w.add w.voidBox

/-- Modelled from the spec: `Bnd_Box` (OpenCASCADE), either void or the box
between two corners. -/
inductive Bnd_Box where
  | void
  | corners (xmin ymin zmin xmax ymax zmax : Int)
  deriving DecidableEq, Repr

/-- Modelled from the spec: `BndUtils::add` (bnd_utils.h is not among the
sources) unions the second box into the first. -/
def BndUtils.add : Bnd_Box → Bnd_Box → Bnd_Box
  | .void, other => other
  | box, .void => box
  | .corners x0 y0 z0 x1 y1 z1, .corners a0 b0 c0 a1 b1 c1 =>
    .corners (min x0 a0) (min y0 b0) (min z0 c0) (max x1 a1) (max y1 b1) (max z1 c1)

/-- A document with item `1` (XDE, bounds [0,0,0]-[1,1,1]), item `2` (mesh,
bounds [2,2,2]-[3,3,3]) and items of an unrecognised kind elsewhere. -/
def sampleWorld : World Bnd_Box :=
  { voidBox := .void
    add := BndUtils.add
    dynType := fun item =>
      if item = 1 then .xdeDocumentItem else if item = 2 then .meshItem else .other item
    aisBox := fun item =>
      if item = 1 then .corners 0 0 0 1 1 1
      else if item = 2 then .corners 2 2 2 3 3 3
      else .void
    faceOwners := fun item =>
      if item = 1 then [⟨10, some 100⟩, ⟨11, some 101⟩] else [] }

/-- The registry of the sample document after item `1` was added. -/
def sampleRegistry : GuiDocument Bnd_Box :=
  { m_vecGuiDocumentItem :=
      [{ docItem := 1
         gpxDocItem := some
           { variant := .gpxXdeDocumentItem, item := 1,
             m_hndGpxObject := { addr := 0, source := 1, box := .corners 0 0 0 1 1 1 } }
         vecGpxEntityOwner := [⟨10, some 100⟩, ⟨11, some 101⟩] }]
    m_gpxBoundingBox := .corners 0 0 0 1 1 1
    m_aisContext :=
      { displayed := [{ addr := 0, source := 1, box := .corners 0 0 0 1 1 1 }]
        activated :=
          [({ addr := 0, source := 1, box := .corners 0 0 0 1 1 1 }, .vertex),
           ({ addr := 0, source := 1, box := .corners 0 0 0 1 1 1 }, .edge),
           ({ addr := 0, source := 1, box := .corners 0 0 0 1 1 1 }, .face)]
        selected := [] }
    emitted := [.corners 0 0 0 1 1 1]
    destroyed := []
    fitAllCalls := 1
    allocated := 1 }

/-! ## Observable properties -/

/-- Modelled from the spec: `PropertyOwner` (property.h is not among the sources)
receives the change notifications of its properties unless it is in the
suppressed state. `delivered` lists the arguments of the `onPropertyChanged`
calls it received, oldest first. -/
structure PropertyOwner (ν : Type) where
  suppressed : Bool
  delivered : List ν
  deriving DecidableEq, Repr

/-- Modelled from the spec: `PropertyOwner::onPropertyChanged(prop)`, recorded. -/
def PropertyOwner.onPropertyChanged {ν : Type} (owner : PropertyOwner ν) (prop : ν) :
    PropertyOwner ν :=
  { owner with delivered := owner.delivered ++ [prop] }

/-- Modelled from the spec: `Property::notifyChanged` (property.h is not among the
sources) calls the owner's `onPropertyChanged(this)` synchronously unless the
owner is in the suppressed state. -/
def Property.notifyChanged {ν : Type} (owner : PropertyOwner ν) (self : ν) : PropertyOwner ν :=
  if owner.suppressed then owner else owner.onPropertyChanged self

/-- Modelled from the spec: entering the suppression scope opened by
`Mayo_PropertyChangedBlocker(owner)` (the macro is not among the sources). -/
def PropertyChangedBlocker.enter {ν : Type} (owner : PropertyOwner ν) : PropertyOwner ν :=
  { owner with suppressed := true }

/-- Modelled from the spec: leaving the suppression scope; notifications resume. -/
def PropertyChangedBlocker.leave {ν : Type} (owner : PropertyOwner ν) : PropertyOwner ν :=
  { owner with suppressed := false }

/-- The template `PropertyDefault<T>`. -/
class PropertyDefault (T : Type) where
  initValue : T

instance : PropertyDefault Bool := ⟨false⟩

instance : PropertyDefault Int := ⟨0⟩

/-- The class `GenericProperty<T>`. -/
structure GenericProperty (T : Type) where
  label : String
  m_value : T
  deriving DecidableEq, Repr

/-- The constructor `GenericProperty<T>::GenericProperty(owner, label)`. -/
def GenericProperty.ctor {T : Type} [PropertyDefault T] (label : String) : GenericProperty T :=
  { label := label, m_value := PropertyDefault.initValue }

/-- The getter `GenericProperty<T>::value`. -/
def GenericProperty.value {T : Type} (p : GenericProperty T) : T :=
  p.m_value

/-- The method `GenericProperty<T>::setValue`. `up` is the conversion of `this` to
the `Property*` handed to the owner. -/
def GenericProperty.setValue {T ν : Type} (up : GenericProperty T → ν) (p : GenericProperty T)
    (owner : PropertyOwner ν) (val : T) : GenericProperty T × PropertyOwner ν :=
  let p1 : GenericProperty T := { p with m_value := val }
  (p1, Property.notifyChanged owner (up p1))

/-- The class `GenericPropertyQuantity<UNIT>`; `Q` is `Quantity<UNIT>`. -/
structure GenericPropertyQuantity (Q : Type) where
  label : String
  m_quantity : Q
  deriving DecidableEq, Repr

/-- The getter `GenericPropertyQuantity<UNIT>::quantity`. -/
def GenericPropertyQuantity.quantity {Q : Type} (p : GenericPropertyQuantity Q) : Q :=
  p.m_quantity

/-- The method `GenericPropertyQuantity<UNIT>::setQuantity`. -/
def GenericPropertyQuantity.setQuantity {Q ν : Type} (up : GenericPropertyQuantity Q → ν)
    (p : GenericPropertyQuantity Q) (owner : PropertyOwner ν) (qty : Q) :
    GenericPropertyQuantity Q × PropertyOwner ν :=
  let p1 : GenericPropertyQuantity Q := { p with m_quantity := qty }
  (p1, Property.notifyChanged owner (up p1))

/-- The class `PropertyScalarConstraints<T>`. -/
structure PropertyScalarConstraints (T : Type) where
  m_minimum : T
  m_maximum : T
  m_singleStep : T
  m_constraintsEnabled : Bool
  deriving DecidableEq, Repr

namespace PropertyScalarConstraints

variable {T : Type}

/-- The defaulted constructor: the three scalar members are left uninitialised
(whatever `m0`, `m1`, `m2` the storage holds), the flag is `false`. -/
def defaultCtor (m0 m1 m2 : T) : PropertyScalarConstraints T :=
  { m_minimum := m0, m_maximum := m1, m_singleStep := m2, m_constraintsEnabled := false }

/-- The constructor `PropertyScalarConstraints(minimum, maximum, singleStep)`. -/
def ctor (minimum maximum singleStep : T) : PropertyScalarConstraints T :=
  { m_minimum := minimum, m_maximum := maximum, m_singleStep := singleStep,
    m_constraintsEnabled := true }

/-- The getter `constraintsEnabled`. -/
def constraintsEnabled (c : PropertyScalarConstraints T) : Bool := c.m_constraintsEnabled

/-- The setter `setConstraintsEnabled`. -/
def setConstraintsEnabled (c : PropertyScalarConstraints T) (enable : Bool) :
    PropertyScalarConstraints T :=
  { c with m_constraintsEnabled := enable }

/-- The getter `minimum`. -/
def minimum (c : PropertyScalarConstraints T) : T := c.m_minimum

/-- The setter `setMinimum`. -/
def setMinimum (c : PropertyScalarConstraints T) (val : T) : PropertyScalarConstraints T :=
  { c with m_minimum := val }

/-- The getter `maximum`. -/
def maximum (c : PropertyScalarConstraints T) : T := c.m_maximum

/-- The setter `setMaximum`. -/
def setMaximum (c : PropertyScalarConstraints T) (val : T) : PropertyScalarConstraints T :=
  { c with m_maximum := val }

/-- The setter `setRange`. -/
def setRange (c : PropertyScalarConstraints T) (minVal maxVal : T) :
    PropertyScalarConstraints T :=
  (c.setMinimum minVal).setMaximum maxVal

/-- The getter `singleStep`. -/
def singleStep (c : PropertyScalarConstraints T) : T := c.m_singleStep

/-- The setter `setSingleStep`. -/
def setSingleStep (c : PropertyScalarConstraints T) (step : T) : PropertyScalarConstraints T :=
  { c with m_singleStep := step }

/-- A call of one of the five setters. -/
inductive Setter (T : Type) where
  | setConstraintsEnabled (enable : Bool)
  | setMinimum (val : T)
  | setMaximum (val : T)
  | setRange (minVal maxVal : T)
  | setSingleStep (step : T)
  deriving DecidableEq, Repr

/-- The effect of one setter call. -/
def apply (c : PropertyScalarConstraints T) : Setter T → PropertyScalarConstraints T
  | .setConstraintsEnabled enable => c.setConstraintsEnabled enable
  | .setMinimum val => c.setMinimum val
  | .setMaximum val => c.setMaximum val
  | .setRange minVal maxVal => c.setRange minVal maxVal
  | .setSingleStep step => c.setSingleStep step

/-- The effect of a sequence of setter calls, first call first. -/
def applyAll (c : PropertyScalarConstraints T) (calls : List (Setter T)) :
    PropertyScalarConstraints T :=
  calls.foldl apply c

/-- How a constraints object is constructed: by the defaulted constructor or by
`PropertyScalarConstraints(minimum, maximum, singleStep)`. -/
inductive Construction (T : Type) where
  | defaultCtor
  | ctor (minimum maximum singleStep : T)
  deriving DecidableEq, Repr

/-- The object a construction yields; `m0`, `m1`, `m2` are what the storage holds
when the object is default-constructed. -/
def Construction.build (m0 m1 m2 : T) : Construction T → PropertyScalarConstraints T
  | .defaultCtor => PropertyScalarConstraints.defaultCtor m0 m1 m2
  | .ctor minimum maximum singleStep => PropertyScalarConstraints.ctor minimum maximum singleStep

/-- What the caller has passed so far, read from the calls alone: the flag last
passed (`false` after the defaulted constructor, `true` after the three-argument
one) and the minimum and maximum last passed to the three-argument constructor,
`setMinimum`, `setMaximum` or `setRange` (`none`: never passed). -/
structure Passed (T : Type) where
  enabled : Bool
  minimum : Option T
  maximum : Option T
  deriving DecidableEq, Repr

/-- What a construction passes. -/
def Passed.start : Construction T → Passed T
  | .defaultCtor => { enabled := false, minimum := none, maximum := none }
  | .ctor minimum maximum _ => { enabled := true, minimum := some minimum, maximum := some maximum }

/-- What one setter call passes. -/
def Passed.step (h : Passed T) : Setter T → Passed T
  | .setConstraintsEnabled enable => { h with enabled := enable }
  | .setMinimum val => { h with minimum := some val }
  | .setMaximum val => { h with maximum := some val }
  | .setRange minVal maxVal => { h with minimum := some minVal, maximum := some maxVal }
  | .setSingleStep _ => h

/-- What a construction followed by a sequence of setter calls has passed. -/
def Passed.after (how : Construction T) (calls : List (Setter T)) : Passed T :=
  calls.foldl Passed.step (Passed.start how)

/-- The caller's side of the range invariant: when the flag last passed is `true`,
a minimum and a maximum have been passed and the last ones are ordered. -/
def Passed.ordered [LE T] (h : Passed T) : Prop :=
  h.enabled = true → ∃ a b, h.minimum = some a ∧ h.maximum = some b ∧ a ≤ b

/-- The object and the calls agree: the object holds the flag last passed and
every bound that was passed. -/
def Passed.agrees (h : Passed T) (c : PropertyScalarConstraints T) : Prop :=
  c.constraintsEnabled = h.enabled ∧
    (∀ a, h.minimum = some a → c.minimum = a) ∧ (∀ b, h.maximum = some b → c.maximum = b)

end PropertyScalarConstraints

/-- The class `GenericScalarProperty<T>`, which derives from `GenericProperty<T>`
and `PropertyScalarConstraints<T>`. -/
structure GenericScalarProperty (T : Type) extends
    GenericProperty T, PropertyScalarConstraints T
  deriving DecidableEq, Repr

namespace GenericScalarProperty

variable {T : Type}

/-- The constructor `GenericScalarProperty(owner, label)`; the constraints base
is default-initialised. -/
def ctor [PropertyDefault T] (label : String) (m0 m1 m2 : T) : GenericScalarProperty T :=
  { toGenericProperty := GenericProperty.ctor label,
    toPropertyScalarConstraints := PropertyScalarConstraints.defaultCtor m0 m1 m2 }

/-- The constructor `GenericScalarProperty(owner, label, minimum, maximum, singleStep)`. -/
def ctorRange [PropertyDefault T] (label : String) (minimum maximum singleStep : T) :
    GenericScalarProperty T :=
  { toGenericProperty := GenericProperty.ctor label,
    toPropertyScalarConstraints := PropertyScalarConstraints.ctor minimum maximum singleStep }

/-- The inherited `GenericProperty<T>::setValue`, called on a scalar property. -/
def setValue {ν : Type} (up : GenericScalarProperty T → ν) (p : GenericScalarProperty T)
    (owner : PropertyOwner ν) (val : T) : GenericScalarProperty T × PropertyOwner ν :=
  let r := p.toGenericProperty.setValue (fun g => up { p with toGenericProperty := g }) owner val
  ({ p with toGenericProperty := r.1 }, r.2)

/-- An inherited `PropertyScalarConstraints<T>` setter, called on a scalar
property that belongs to `owner`. -/
def callSetter {ν : Type} (p : GenericScalarProperty T) (owner : PropertyOwner ν)
    (call : PropertyScalarConstraints.Setter T) : GenericScalarProperty T × PropertyOwner ν :=
  ({ p with toPropertyScalarConstraints := p.toPropertyScalarConstraints.apply call }, owner)

end GenericScalarProperty

/-! ## Mesh proxy -/

/-- The process-wide `Options` values read by the `GpxMeshItem` constructor. -/
structure Options (Color : Type) where
  meshDefaultShowEdges : Bool
  meshDefaultShowNodes : Bool
  meshDefaultMaterial : Int
  meshDefaultColor : Color
  deriving DecidableEq, Repr

/-- The attributes of the `MeshVS_Mesh` object and its drawer that the
constructor writes and reads back. -/
structure MeshVS_Mesh (Color : Type) where
  showEdges : Bool
  displayNodes : Bool
  frontMaterial : Int
  interiorColor : Color
  displayMode : Int
  hilightMode : Int
  deriving DecidableEq, Repr

/-- The constant `MeshVS_DMF_WireFrame`. -/
def MeshVS_DMF_WireFrame : Int := 1

/-- The constant `MeshVS_DMF_Shading`. -/
def MeshVS_DMF_Shading : Int := 2

/-- The properties of a `GpxMeshItem`, as the `Property*` its
`onPropertyChanged` compares against. -/
inductive MeshProperty where
  | propertyMaterial
  | propertyColor
  | propertyDisplayMode
  | propertyShowEdges
  | propertyShowNodes
  deriving DecidableEq, Repr

/-- The calls `GpxMeshItem::onPropertyChanged` makes on the representation. -/
inductive ViewerCall where
  | drawerSetMaterial
  | drawerSetColor
  | contextSetDisplayMode
  | drawerSetShowEdges
  | drawerSetDisplayNodes
  | redisplayAndUpdateViewer
  deriving DecidableEq, Repr

/-- The class `GpxMeshItem`: its `PropertyOwner` base, its five properties (the
enumeration properties store the integer value of the enumeration) and the mesh
representation. -/
structure GpxMeshItem (Color : Type) where
  owner : PropertyOwner MeshProperty
  propertyMaterial : GenericProperty Int
  propertyColor : GenericProperty Color
  propertyDisplayMode : GenericProperty Int
  propertyShowEdges : GenericProperty Bool
  propertyShowNodes : GenericProperty Bool
  m_hndGpxObject : MeshVS_Mesh Color
  deriving DecidableEq, Repr

/-- The constructor `GpxMeshItem::GpxMeshItem`: builds the mesh representation
from the default options, then initialises the five properties from it inside a
suppression scope that ends with the constructor body. -/
def GpxMeshItem.ctor {Color : Type} [PropertyDefault Color] (opts : Options Color) :
    GpxMeshItem Color :=
  let propertyMaterial : GenericProperty Int := GenericProperty.ctor "Material"
  let propertyColor : GenericProperty Color := GenericProperty.ctor "Color"
  let propertyDisplayMode : GenericProperty Int := GenericProperty.ctor "Display mode"
  let propertyShowEdges : GenericProperty Bool := GenericProperty.ctor "Show edges"
  let propertyShowNodes : GenericProperty Bool := GenericProperty.ctor "Show nodes"
  let owner : PropertyOwner MeshProperty := { suppressed := false, delivered := [] }
  let meshVisu : MeshVS_Mesh Color :=
    { showEdges := opts.meshDefaultShowEdges
      displayNodes := opts.meshDefaultShowNodes
      frontMaterial := opts.meshDefaultMaterial
      interiorColor := opts.meshDefaultColor
      displayMode := MeshVS_DMF_Shading
      hilightMode := MeshVS_DMF_WireFrame }
  let owner := PropertyChangedBlocker.enter owner
  let material := propertyMaterial.setValue (fun _ => .propertyMaterial) owner meshVisu.frontMaterial
  let color := propertyColor.setValue (fun _ => .propertyColor) material.2 meshVisu.interiorColor
  let mode := propertyDisplayMode.setValue (fun _ => .propertyDisplayMode) color.2 meshVisu.displayMode
  let edges := propertyShowEdges.setValue (fun _ => .propertyShowEdges) mode.2 meshVisu.showEdges
  let nodes := propertyShowNodes.setValue (fun _ => .propertyShowNodes) edges.2 meshVisu.displayNodes
  let owner := PropertyChangedBlocker.leave nodes.2
  { owner := owner
    propertyMaterial := material.1
    propertyColor := color.1
    propertyDisplayMode := mode.1
    propertyShowEdges := edges.1
    propertyShowNodes := nodes.1
    m_hndGpxObject := meshVisu }

/-- The calls `GpxMeshItem::onPropertyChanged(prop)` makes on the representation. -/
def GpxMeshItem.onPropertyChanged : MeshProperty → List ViewerCall
  | .propertyMaterial => [.drawerSetMaterial, .redisplayAndUpdateViewer]
  | .propertyColor => [.drawerSetColor, .redisplayAndUpdateViewer]
  | .propertyDisplayMode => [.contextSetDisplayMode]
  | .propertyShowEdges => [.drawerSetShowEdges, .redisplayAndUpdateViewer]
  | .propertyShowNodes => [.drawerSetDisplayNodes, .redisplayAndUpdateViewer]

/-- All calls made on the representation by the notifications a mesh proxy has
received. -/
def GpxMeshItem.viewerCalls {Color : Type} (m : GpxMeshItem Color) : List ViewerCall :=
  (m.owner.delivered.map GpxMeshItem.onPropertyChanged).flatten

/-- A sequence of `setValue` calls on one property, first value first. -/
def GenericProperty.setValues {T ν : Type} (up : GenericProperty T → ν) (p : GenericProperty T)
    (owner : PropertyOwner ν) (vals : List T) : GenericProperty T × PropertyOwner ν :=
  vals.foldl (fun st val => st.1.setValue up st.2 val) (p, owner)

/-! ## Type names -/

/-- The sixteen property classes named at the end of `property_builtins.h`. -/
inductive PropertyClass where
  | PropertyBool
  | PropertyInt
  | PropertyDouble
  | PropertyQByteArray
  | PropertyQString
  | PropertyQDateTime
  | PropertyOccColor
  | PropertyOccPnt
  | PropertyOccTrsf
  | PropertyLength
  | PropertyArea
  | PropertyVolume
  | PropertyMass
  | PropertyTime
  | PropertyAngle
  | PropertyVelocity
  deriving DecidableEq, Repr

/-- The static member `TypeName` of each property class. -/
def PropertyClass.TypeName : PropertyClass → String
  | .PropertyBool => "Mayo::PropertyBool"
  | .PropertyInt => "Mayo::PropertyInt"
  | .PropertyDouble => "Mayo::PropertyDouble"
  | .PropertyQByteArray => "Mayo::PropertyQByteArray"
  | .PropertyQString => "Mayo::PropertyQString"
  | .PropertyQDateTime => "Mayo::PropertyQDateTime"
  | .PropertyOccColor => "Mayo::PropertyOccColor"
  | .PropertyOccPnt => "Mayo::PropertyOccPnt"
  | .PropertyOccTrsf => "Mayo::PropertyOccTrsf"
  | .PropertyLength => "Mayo::PropertyLength"
  | .PropertyArea => "Mayo::PropertyArea"
  | .PropertyVolume => "Mayo::PropertyVolume"
  | .PropertyMass => "Mayo::PropertyMass"
  | .PropertyTime => "Mayo::PropertyTime"
  | .PropertyAngle => "Mayo::PropertyAngle"
  | .PropertyVelocity => "Mayo::PropertyVelocity"

/-- All sixteen property classes, in declaration order. -/
def PropertyClass.all : List PropertyClass :=
  [.PropertyBool, .PropertyInt, .PropertyDouble, .PropertyQByteArray, .PropertyQString,
   .PropertyQDateTime, .PropertyOccColor, .PropertyOccPnt, .PropertyOccTrsf, .PropertyLength,
   .PropertyArea, .PropertyVolume, .PropertyMass, .PropertyTime, .PropertyAngle,
   .PropertyVelocity]

/-- The method `GenericProperty<T>::dynTypeName`, for an instance of class `cls`:
it returns the static `TypeName` of the class and reads nothing of the instance. -/
def GenericProperty.dynTypeName {T : Type} (cls : PropertyClass) (_p : GenericProperty T) :
    String :=
  cls.TypeName

/-- The method `dynTypeName` a `GenericScalarProperty<T>` inherits from
`GenericProperty<T>`. -/
def GenericScalarProperty.dynTypeName {T : Type} (cls : PropertyClass)
    (p : GenericScalarProperty T) : String :=
  p.toGenericProperty.dynTypeName cls

/-- The method `GenericPropertyQuantity<UNIT>::dynTypeName`, for an instance of
class `cls`. -/
def GenericPropertyQuantity.dynTypeName {Q : Type} (cls : PropertyClass)
    (_p : GenericPropertyQuantity Q) : String :=
  cls.TypeName

/-! ## Selection -/

/-- The enumeration `TopAbs_ShapeEnum`, most complex kind first. -/
inductive TopAbs_ShapeEnum where
  | COMPOUND
  | COMPSOLID
  | SOLID
  | SHELL
  | FACE
  | WIRE
  | EDGE
  | VERTEX
  | SHAPE
  deriving DecidableEq, Repr

/-- The integer value of a `TopAbs_ShapeEnum` enumerator. -/
def TopAbs_ShapeEnum.toNat : TopAbs_ShapeEnum → Nat
  | .COMPOUND => 0
  | .COMPSOLID => 1
  | .SOLID => 2
  | .SHELL => 3
  | .FACE => 4
  | .WIRE => 5
  | .EDGE => 6
  | .VERTEX => 7
  | .SHAPE => 8

/-- A located `TopoDS_Shape` as `toggleItemSelected` inspects it: its identity
under `operator==`, its `ShapeType()` and the faces `BRepUtils::forEachSubFace`
visits, in visiting order. -/
structure TopoDS_Shape where
  ident : Nat
  shapeType : TopAbs_ShapeEnum
  subFaces : List Nat
  deriving DecidableEq, Repr

/-- Modelled from the spec: `BRepUtils::moreComplex` (brep_utils.h is not among
the sources) tells whether the first shape kind decomposes into the second. -/
def BRepUtils.moreComplex (lhs rhs : TopAbs_ShapeEnum) : Bool :=
  decide (lhs.toNat < rhs.toNat)

/-- The struct `XdeAssemblyNode`. -/
structure XdeAssemblyNode where
  ownerDocItem : DocumentItem
  nodeId : Nat
  deriving DecidableEq, Repr

/-- What an `ApplicationItem` designates. -/
inductive ApplicationTarget where
  | xdeAssemblyNode (node : XdeAssemblyNode)
  | documentItem (item : DocumentItem)
  | document
  | invalid
  deriving DecidableEq, Repr

/-- The class `ApplicationItem`: the address `document()` returns and the target. -/
structure ApplicationItem where
  document : Nat
  target : ApplicationTarget
  deriving DecidableEq, Repr

/-- What `toggleItemSelected` reads from the document: `rootItems` is
`Document::rootItems`, `nodeShape item nodeId` the shape of an assembly node of
an XDE item, located at its absolute location. -/
structure Documents where
  rootItems : Nat → List DocumentItem
  nodeShape : DocumentItem → Nat → TopoDS_Shape

/-- The call `m_aisContext->AddOrRemoveSelected(owner, false)`, as a membership
toggle on the address of the owner. -/
def AisContext.AddOrRemoveSelected {Box : Type} (c : AisContext Box) (owner : Nat) :
    AisContext Box :=
  { c with selected :=
      if owner ∈ c.selected then c.selected.filter (fun h => !decide (h = owner))
      else c.selected ++ [owner] }

/-- The method `GuiDocument::findGuiDocumentItem`. -/
def GuiDocument.findGuiDocumentItem {Box : Type} (s : GuiDocument Box) (item : DocumentItem) :
    Option (GuiDocumentItem Box) :=
  s.m_vecGuiDocumentItem.find? (fun guiItem => decide (guiItem.docItem = item))

/-- The method `GuiDocument::findItemGpx`. -/
def GuiDocument.findItemGpx {Box : Type} (s : GuiDocument Box) (item : DocumentItem) :
    Option (GpxDocumentItem Box) :=
  match s.findGuiDocumentItem item with
  | some guiDocItem => guiDocItem.gpxDocItem
  | none => none

/-- The predicate of the `std::find_if` in `findBrepOwner`. -/
def GuiDocumentItem.isBrepOwnerOf (face : Nat) (owner : EntityOwner) : Bool :=
  match owner.brepShape with
  | some shape => decide (shape = face)
  | none => false

/-- The method `GuiDocument::GuiDocumentItem::findBrepOwner`; `none` is the null
handle. -/
def GuiDocumentItem.findBrepOwner {Box : Type} (guiItem : GuiDocumentItem Box) (face : Nat) :
    Option EntityOwner :=
  guiItem.vecGpxEntityOwner.find? (GuiDocumentItem.isBrepOwnerOf face)

/-- The faces `toggleItemSelected` collects in `vecFace` for a shape. -/
def GuiDocument.vecFace (shape : TopoDS_Shape) : List Nat :=
  if BRepUtils.moreComplex shape.shapeType .FACE then shape.subFaces
  else if shape.shapeType = .FACE then [shape.ident]
  else []

/-- The loop of `toggleItemSelected` over `vecFace`. -/
def GuiDocument.toggleFaces {Box : Type} (guiItem : GuiDocumentItem Box) :
    AisContext Box → List Nat → AisContext Box
  | ctx, [] => ctx
  | ctx, face :: rest =>
    match guiItem.findBrepOwner face with
    | some brepOwner => GuiDocument.toggleFaces guiItem (ctx.AddOrRemoveSelected brepOwner.handle) rest
    | none => GuiDocument.toggleFaces guiItem ctx rest

/-- The loop of `toggleItemSelected` over the root items of the document. -/
def GuiDocument.toggleRootItems {Box : Type} (s : GuiDocument Box) :
    AisContext Box → List DocumentItem → AisContext Box
  | ctx, [] => ctx
  | ctx, docItem :: rest =>
    match s.findItemGpx docItem with
    | some gpxItem =>
      GuiDocument.toggleRootItems s (ctx.AddOrRemoveSelected gpxItem.handleGpxObject.addr) rest
    | none => GuiDocument.toggleRootItems s ctx rest

/-- The method `GuiDocument::toggleItemSelected`; `document` is the address
`this->document()` returns. -/
def GuiDocument.toggleItemSelected {Box : Type} (d : Documents) (document : Nat)
    (s : GuiDocument Box) (appItem : ApplicationItem) : GuiDocument Box :=
  if appItem.document ≠ document then s
  else
    match appItem.target with
    | .xdeAssemblyNode xdeAsmNode =>
      match s.findGuiDocumentItem xdeAsmNode.ownerDocItem with
      | some guiItem =>
        let shape := d.nodeShape xdeAsmNode.ownerDocItem xdeAsmNode.nodeId
        { s with m_aisContext :=
            GuiDocument.toggleFaces guiItem s.m_aisContext (GuiDocument.vecFace shape) }
      | none => s
    | .documentItem item =>
      match s.findItemGpx item with
      | some gpxItem =>
        { s with m_aisContext :=
            s.m_aisContext.AddOrRemoveSelected gpxItem.handleGpxObject.addr }
      | none => s
    | .document =>
      { s with m_aisContext :=
          GuiDocument.toggleRootItems s s.m_aisContext (d.rootItems appItem.document) }
    | .invalid => s

/-- The sample document (address 5): root items 1 and 2; node 0 of item 1 is a
solid with the faces 100 and 101, node 1 is the face 100, node 2 is an edge. -/
def sampleDocuments : Documents :=
  { rootItems := fun doc => if doc = 5 then [1, 2] else []
    nodeShape := fun item nodeId =>
      if item = 1 ∧ nodeId = 0 then ⟨200, .SOLID, [100, 101]⟩
      else if item = 1 ∧ nodeId = 1 then ⟨100, .FACE, []⟩
      else ⟨300, .EDGE, []⟩ }

/-- A sequence of `AddOrRemoveSelected` calls, first owner first. -/
def AisContext.toggleAll {Box : Type} : AisContext Box → List Nat → AisContext Box
  | ctx, [] => ctx
  | ctx, owner :: rest => AisContext.toggleAll (ctx.AddOrRemoveSelected owner) rest

/-- The owners `toggleItemSelected` passes to `AddOrRemoveSelected`, in call order. -/
def GuiDocument.toggledOwners {Box : Type} (d : Documents) (document : Nat)
    (s : GuiDocument Box) (appItem : ApplicationItem) : List Nat :=
  if appItem.document ≠ document then []
  else
    match appItem.target with
    | .xdeAssemblyNode xdeAsmNode =>
      match s.findGuiDocumentItem xdeAsmNode.ownerDocItem with
      | some guiItem =>
        (GuiDocument.vecFace (d.nodeShape xdeAsmNode.ownerDocItem xdeAsmNode.nodeId)).filterMap
          (fun face => (guiItem.findBrepOwner face).map (fun brepOwner => brepOwner.handle))
      | none => []
    | .documentItem item =>
      match s.findItemGpx item with
      | some gpxItem => [gpxItem.handleGpxObject.addr]
      | none => []
    | .document =>
      (d.rootItems appItem.document).filterMap
        (fun docItem => (s.findItemGpx docItem).map (fun gpxItem => gpxItem.handleGpxObject.addr))
    | .invalid => []

/-! ## Lemmas on the scene registry -/

/-- The registry invariant: every entry holds a proxy and the bounding box is the
union of the entries' bounds. -/
def GuiDocument.Inv {Box : Type} (w : World Box) (s : GuiDocument Box) : Prop :=
  (∀ guiItem ∈ s.m_vecGuiDocumentItem, guiItem.gpxDocItem.isSome = true) ∧
    s.m_gpxBoundingBox = GuiDocument.unionOfBounds w s.m_vecGuiDocumentItem

theorem createGpxForItem_of_supported {Box : Type} (w : World Box) (addr : Nat)
    (item : DocumentItem) (h : w.supported item) :
    ∃ variant, Internal.createGpxForItem w addr item
      = some (GpxDocumentItem.new w variant addr item) := by
  rcases h with h | h
  · exact ⟨.gpxXdeDocumentItem, by
      simp [Internal.createGpxForItem, Internal.createGpxIfItemOfType, sameType, h]⟩
  · exact ⟨.gpxMeshItem, by
      simp [Internal.createGpxForItem, Internal.createGpxIfItemOfType, sameType, h]⟩

theorem createGpxForItem_of_unsupported {Box : Type} (w : World Box) (addr : Nat)
    (item : DocumentItem) (h : ¬ w.supported item) :
    Internal.createGpxForItem w addr item = none := by
  have h1 : w.dynType item ≠ .xdeDocumentItem := fun e => h (Or.inl e)
  have h2 : w.dynType item ≠ .meshItem := fun e => h (Or.inr e)
  simp [Internal.createGpxForItem, Internal.createGpxIfItemOfType, sameType, h1, h2]

theorem unionOfBounds_append_proxy {Box : Type} (w : World Box)
    (vec : List (GuiDocumentItem Box)) (guiItem : GuiDocumentItem Box)
    (gpx : GpxDocumentItem Box) (h : guiItem.gpxDocItem = some gpx) :
    GuiDocument.unionOfBounds w (vec ++ [guiItem])
      = w.add (GuiDocument.unionOfBounds w vec) (BndUtils.get gpx.handleGpxObject) := by
  simp [GuiDocument.unionOfBounds, List.filterMap_append, h]

theorem recomputeBox_of_proxies {Box : Type} (w : World Box) :
    ∀ (vec : List (GuiDocumentItem Box)) (box : Box),
      (∀ guiItem ∈ vec, guiItem.gpxDocItem.isSome = true) →
      GuiDocument.recomputeBox w box vec
        = .ok (((vec.filterMap (fun guiItem => guiItem.gpxDocItem)).map
            (fun gpx => BndUtils.get gpx.handleGpxObject)).foldl w.add box) := by
  intro vec
  induction vec with
  | nil => intro box _; rfl
  | cons guiItem rest ih =>
    intro box h
    have hsome := h guiItem (List.mem_cons_self _ _)
    obtain ⟨gpx, hgpx⟩ := Option.isSome_iff_exists.mp hsome
    have hrest : ∀ g ∈ rest, g.gpxDocItem.isSome = true :=
      fun g hg => h g (List.mem_cons_of_mem _ hg)
    simp [GuiDocument.recomputeBox, hgpx, ih _ hrest]

theorem onItemAdded_inv {Box : Type} (w : World Box) (s : GuiDocument Box)
    (item : DocumentItem) (hs : GuiDocument.Inv w s) (h : w.supported item) :
    ∃ s1, GuiDocument.onItemAdded w s item = .ok s1 ∧ GuiDocument.Inv w s1 := by
  obtain ⟨variant, hv⟩ := createGpxForItem_of_supported w s.allocated item h
  obtain ⟨hall, hbox⟩ := hs
  simp only [GuiDocument.onItemAdded, hv]
  refine ⟨_, rfl, ?_, ?_⟩
  · intro guiItem hmem
    simp only [List.mem_append, List.mem_singleton] at hmem
    rcases hmem with hmem | hmem
    · exact hall guiItem hmem
    · subst hmem
      split <;> rfl
  · have key : ∀ g : GuiDocumentItem Box,
        g.gpxDocItem = some (GpxDocumentItem.new w variant s.allocated item) →
        w.add s.m_gpxBoundingBox
            (BndUtils.get (GpxDocumentItem.new w variant s.allocated item).handleGpxObject)
          = GuiDocument.unionOfBounds w (s.m_vecGuiDocumentItem ++ [g]) := by
      intro g hg
      rw [unionOfBounds_append_proxy w _ g _ hg, hbox]
    apply key
    split <;> rfl

theorem onItemErased_inv {Box : Type} [DecidableEq Box] (w : World Box) (s : GuiDocument Box)
    (item : DocumentItem) (hs : GuiDocument.Inv w s) :
    ∃ s1, GuiDocument.onItemErased w s item = .ok s1 ∧ GuiDocument.Inv w s1 := by
  obtain ⟨hall, hbox⟩ := hs
  unfold GuiDocument.onItemErased
  cases hfind : s.m_vecGuiDocumentItem.find? (fun guiItem => decide (guiItem.docItem = item)) with
  | none => exact ⟨s, rfl, hall, hbox⟩
  | some found =>
    have hmem : found ∈ s.m_vecGuiDocumentItem := List.mem_of_find?_eq_some hfind
    obtain ⟨gpx, hgpx⟩ := Option.isSome_iff_exists.mp (hall found hmem)
    have hrest : ∀ g ∈ s.m_vecGuiDocumentItem.eraseP (fun guiItem => decide (guiItem.docItem = item)),
        g.gpxDocItem.isSome = true :=
      fun g hg => hall g (List.mem_of_mem_eraseP hg)
    simp only [hgpx, recomputeBox_of_proxies w _ w.voidBox hrest]
    exact ⟨_, rfl, hrest, rfl⟩

theorem init_inv {Box : Type} (w : World Box) : GuiDocument.Inv w (GuiDocument.init w) := by
  constructor
  · intro guiItem hmem
    simp [GuiDocument.init] at hmem
  · rfl

theorem run_inv {Box : Type} [DecidableEq Box] (w : World Box) :
    ∀ (sigs : List DocumentSignal) (s : GuiDocument Box),
      GuiDocument.Inv w s → w.supportedSignals sigs →
      ∃ s1, GuiDocument.run w s sigs = .ok s1 ∧ GuiDocument.Inv w s1 := by
  intro sigs
  induction sigs with
  | nil => intro s hs _; exact ⟨s, rfl, hs⟩
  | cons sig rest ih =>
    intro s hs hsup
    have hrest : w.supportedSignals rest :=
      fun item hmem => hsup item (List.mem_cons_of_mem _ hmem)
    have hstep : ∃ s1, GuiDocument.deliver w s sig = .ok s1 ∧ GuiDocument.Inv w s1 := by
      cases sig with
      | itemAdded item =>
        exact onItemAdded_inv w s item hs (hsup item (List.mem_cons_self _ _))
      | itemErased item => exact onItemErased_inv w s item hs
    obtain ⟨s1, h1, hinv1⟩ := hstep
    obtain ⟨s2, h2, hinv2⟩ := ih s1 hinv1 hrest
    exact ⟨s2, by simp [GuiDocument.run, h1, h2], hinv2⟩

theorem sampleWorld_supportedSignals :
    sampleWorld.supportedSignals [.itemAdded 1, .itemAdded 2, .itemErased 1] := by
  intro item hmem
  simp only [List.mem_cons, DocumentSignal.itemAdded.injEq, List.mem_singleton,
    reduceCtorEq, or_false, List.not_mem_nil] at hmem
  rcases hmem with rfl | rfl
  · exact Or.inl (by decide)
  · exact Or.inr (by decide)

theorem onItemErased_absent {Box : Type} [DecidableEq Box] (w : World Box)
    (s : GuiDocument Box) (x : DocumentItem)
    (h : ∀ guiItem ∈ s.m_vecGuiDocumentItem, guiItem.docItem ≠ x) :
    GuiDocument.onItemErased w s x = .ok s := by
  have hfind : s.m_vecGuiDocumentItem.find? (fun guiItem => decide (guiItem.docItem = x)) = none := by
    rw [List.find?_eq_none]
    intro g hg
    simpa using h g hg
  simp [GuiDocument.onItemErased, hfind]

theorem eraseP_clears_of_countP_le_one {α : Type} (p : α → Bool) :
    ∀ l : List α, l.countP p ≤ 1 → ∀ a ∈ l.eraseP p, p a = false := by
  intro l
  induction l with
  | nil => intro _ a ha; simp at ha
  | cons b rest ih =>
    intro hcount a ha
    by_cases hb : p b = true
    · rw [List.eraseP_cons_of_pos hb] at ha
      rw [List.countP_cons_of_pos _ _ hb] at hcount
      have hzero : rest.countP p = 0 := by omega
      have hnone := List.countP_eq_zero.mp hzero a ha
      simpa using hnone
    · rw [List.eraseP_cons_of_neg hb] at ha
      rw [List.countP_cons_of_neg _ _ hb] at hcount
      rcases List.mem_cons.mp ha with rfl | hmem
      · simpa using hb
      · exact ih hcount a hmem

theorem sampleWorld_supportedSignals_two :
    sampleWorld.supportedSignals [.itemAdded 1, .itemAdded 2] := by
  intro item hmem
  simp only [List.mem_cons, DocumentSignal.itemAdded.injEq, List.mem_singleton,
    reduceCtorEq, or_false, List.not_mem_nil] at hmem
  rcases hmem with rfl | rfl
  · exact Or.inl (by decide)
  · exact Or.inr (by decide)

/-! ## The claims on the scene registry -/

/-- C1: starting from a freshly constructed `GuiDocument` (no entries, void box),
after every finite sequence of `onItemAdded` / `onItemErased` calls whose added
items are supported, the calls all return, every entry holds a proxy,
`gpxBoundingBox()` equals `BndUtils::add` folded from a void box over the bounds
of exactly the entries currently in `m_vecGuiDocumentItem`, and it is void when
that list is empty. -/
theorem gpxBoundingBox_eq_unionOfBounds {Box : Type} [DecidableEq Box] (w : World Box)
    (sigs : List DocumentSignal) (h : w.supportedSignals sigs) :
    ∃ s, GuiDocument.run w (GuiDocument.init w) sigs = .ok s ∧
      (∀ guiItem ∈ s.m_vecGuiDocumentItem, guiItem.gpxDocItem.isSome = true) ∧
      s.gpxBoundingBox = GuiDocument.unionOfBounds w s.m_vecGuiDocumentItem ∧
      (s.m_vecGuiDocumentItem = [] → s.gpxBoundingBox = w.voidBox) := by
  obtain ⟨s, hrun, hall, hbox⟩ := run_inv w sigs (GuiDocument.init w) (init_inv w) h
  refine ⟨s, hrun, hall, hbox, ?_⟩
  intro hnil
  rw [GuiDocument.gpxBoundingBox, hbox, hnil]
  rfl

/-- C1, the scenario: adding A with bounds [0,0,0]-[1,1,1] and B with bounds
[2,2,2]-[3,3,3] gives [0,0,0]-[3,3,3]; erasing A then gives [2,2,2]-[3,3,3]. -/
theorem gpxBoundingBox_eq_unionOfBounds_witness :
    sampleWorld.supportedSignals [.itemAdded 1, .itemAdded 2, .itemErased 1] ∧
    (∃ s, GuiDocument.run sampleWorld (GuiDocument.init sampleWorld)
          [.itemAdded 1, .itemAdded 2, .itemErased 1] = .ok s ∧
      (∀ guiItem ∈ s.m_vecGuiDocumentItem, guiItem.gpxDocItem.isSome = true) ∧
      s.gpxBoundingBox = GuiDocument.unionOfBounds sampleWorld s.m_vecGuiDocumentItem ∧
      (s.m_vecGuiDocumentItem = [] → s.gpxBoundingBox = sampleWorld.voidBox)) ∧
    (GuiDocument.run sampleWorld (GuiDocument.init sampleWorld)
        [.itemAdded 1, .itemAdded 2]).map GuiDocument.gpxBoundingBox
      = .ok (.corners 0 0 0 3 3 3) ∧
    (GuiDocument.run sampleWorld (GuiDocument.init sampleWorld)
        [.itemAdded 1, .itemAdded 2, .itemErased 1]).map GuiDocument.gpxBoundingBox
      = .ok (.corners 2 2 2 3 3 3) :=
  ⟨sampleWorld_supportedSignals,
    gpxBoundingBox_eq_unionOfBounds sampleWorld _ sampleWorld_supportedSignals,
    by decide, by decide⟩

/-- C2: on an item whose kind matches no proxy class (item 9 of the sample
document), `createGpxForItem` returns null and `onItemAdded` dereferences it, in
the fresh registry and in the registry holding item 1: the call does not fail
with a reported error, it has no defined result. -/
theorem onItemAdded_unrecognised_kind_faults :
    sampleWorld.dynType 9 ≠ .xdeDocumentItem ∧ sampleWorld.dynType 9 ≠ .meshItem ∧
    Internal.createGpxForItem sampleWorld 0 9 = none ∧
    GuiDocument.onItemAdded sampleWorld (GuiDocument.init sampleWorld) 9
      = .error .nullDereference ∧
    GuiDocument.onItemAdded sampleWorld sampleRegistry 9 = .error .nullDereference := by
  decide

/-- C3, as stated, fails: after item 1 was added twice, the first
`onItemErased(1)` removes one of its two entries and the second call removes the
other one, changes the bounding box and emits a further `gpxBoundingBoxChanged`. -/
theorem onItemErased_twice_duplicate_counterexample :
    ∃ s s1 s2,
      GuiDocument.run sampleWorld (GuiDocument.init sampleWorld)
          [.itemAdded 1, .itemAdded 1] = .ok s ∧
      GuiDocument.onItemErased sampleWorld s 1 = .ok s1 ∧
      GuiDocument.onItemErased sampleWorld s1 1 = .ok s2 ∧
      s1.m_vecGuiDocumentItem.length = 1 ∧ s2.m_vecGuiDocumentItem = [] ∧
      s1.m_gpxBoundingBox = .corners 0 0 0 1 1 1 ∧ s2.m_gpxBoundingBox = .void ∧
      s2.emitted = s1.emitted ++ [.void] := by
  refine ⟨_, _, _, rfl, rfl, rfl, ?_, ?_, ?_, ?_, ?_⟩ <;> decide

/-- C3, amended: in every state reached by `onItemAdded` (supported items) and
`onItemErased` calls in which at most one entry has `docItem == x`, both calls of
`onItemErased(x)` return and the second one changes nothing: the state after it,
with the emitted notifications, is the state after the first call. -/
theorem onItemErased_twice_of_single_entry {Box : Type} [DecidableEq Box] (w : World Box)
    (sigs : List DocumentSignal) (x : DocumentItem) (s : GuiDocument Box)
    (hsup : w.supportedSignals sigs)
    (hrun : GuiDocument.run w (GuiDocument.init w) sigs = .ok s)
    (hone : s.m_vecGuiDocumentItem.countP (fun guiItem => decide (guiItem.docItem = x)) ≤ 1) :
    ∃ s1, GuiDocument.onItemErased w s x = .ok s1 ∧
      GuiDocument.onItemErased w s1 x = .ok s1 := by
  obtain ⟨s0, hrun0, hinv⟩ := run_inv w sigs (GuiDocument.init w) (init_inv w) hsup
  rw [hrun] at hrun0
  cases hrun0
  obtain ⟨s1, h1, _⟩ := onItemErased_inv w s x hinv
  refine ⟨s1, h1, ?_⟩
  apply onItemErased_absent
  intro g hg
  have hclear := eraseP_clears_of_countP_le_one _ s.m_vecGuiDocumentItem hone
  revert h1
  unfold GuiDocument.onItemErased
  cases hfind : s.m_vecGuiDocumentItem.find? (fun guiItem => decide (guiItem.docItem = x)) with
  | none =>
    intro h1
    cases h1
    have := List.find?_eq_none.mp hfind g hg
    simpa using this
  | some found =>
    dsimp only
    split
    · intro h1; cases h1
    · split
      · intro h1; cases h1
      · intro h1
        cases h1
        have := hclear g hg
        simpa using this

/-- C3, amended, at a concrete state: after adding items 1 and 2 one entry has
`docItem == 1`. -/
theorem onItemErased_twice_of_single_entry_witness :
    ∃ s, GuiDocument.run sampleWorld (GuiDocument.init sampleWorld)
          [.itemAdded 1, .itemAdded 2] = .ok s ∧
      s.m_vecGuiDocumentItem.countP (fun guiItem => decide (guiItem.docItem = 1)) ≤ 1 ∧
      ∃ s1, GuiDocument.onItemErased sampleWorld s 1 = .ok s1 ∧
        GuiDocument.onItemErased sampleWorld s1 1 = .ok s1 :=
  ⟨_, rfl, by decide,
    onItemErased_twice_of_single_entry sampleWorld [.itemAdded 1, .itemAdded 2] 1 _
      sampleWorld_supportedSignals_two rfl (by decide)⟩

/-- C4: for every registry state and every item `x` that is not the `docItem` of
any entry, `onItemErased(x)` returns the state it was called in: entry list (contents
and order), bounding box, displayed representations, destroyed proxies and emitted
`gpxBoundingBoxChanged` notifications are all unchanged. -/
theorem onItemErased_unknown_item_noop {Box : Type} [DecidableEq Box] (w : World Box)
    (s : GuiDocument Box) (x : DocumentItem)
    (h : ∀ guiItem ∈ s.m_vecGuiDocumentItem, guiItem.docItem ≠ x) :
    GuiDocument.onItemErased w s x = .ok s ∧
    ∀ s1, GuiDocument.onItemErased w s x = .ok s1 →
      s1.m_vecGuiDocumentItem = s.m_vecGuiDocumentItem ∧
      s1.m_gpxBoundingBox = s.m_gpxBoundingBox ∧
      s1.destroyed = s.destroyed ∧
      s1.m_aisContext.displayed = s.m_aisContext.displayed ∧
      s1.emitted = s.emitted := by
  have hok := onItemErased_absent w s x h
  refine ⟨hok, ?_⟩
  intro s1 h1
  rw [hok] at h1
  cases h1
  exact ⟨rfl, rfl, rfl, rfl, rfl⟩

/-- C4 at a concrete state: item 2 is erased from the registry that holds item 1 only. -/
theorem onItemErased_unknown_item_noop_witness :
    GuiDocument.run sampleWorld (GuiDocument.init sampleWorld) [.itemAdded 1]
      = .ok sampleRegistry ∧
    (∀ guiItem ∈ sampleRegistry.m_vecGuiDocumentItem, guiItem.docItem ≠ 2) ∧
    GuiDocument.onItemErased sampleWorld sampleRegistry 2 = .ok sampleRegistry ∧
    ∀ s1, GuiDocument.onItemErased sampleWorld sampleRegistry 2 = .ok s1 →
      s1.m_vecGuiDocumentItem = sampleRegistry.m_vecGuiDocumentItem ∧
      s1.m_gpxBoundingBox = sampleRegistry.m_gpxBoundingBox ∧
      s1.destroyed = sampleRegistry.destroyed ∧
      s1.m_aisContext.displayed = sampleRegistry.m_aisContext.displayed ∧
      s1.emitted = sampleRegistry.emitted :=
  ⟨by decide, by decide,
    onItemErased_unknown_item_noop sampleWorld sampleRegistry 2 (by decide)⟩

/-! ## Lemmas on properties -/

theorem setValues_suppressed {T ν : Type} (up : GenericProperty T → ν) :
    ∀ (vals : List T) (p : GenericProperty T) (owner : PropertyOwner ν),
      owner.suppressed = true →
      (p.setValues up owner vals).2 = owner ∧
      (p.setValues up owner vals).1.value = vals.getLast?.getD p.value ∧
      (p.setValues up owner vals).1.label = p.label := by
  intro vals
  induction vals with
  | nil => intro p owner _; exact ⟨rfl, rfl, rfl⟩
  | cons val rest ih =>
    intro p owner h
    have hstep : p.setValue up owner val = ({ p with m_value := val }, owner) := by
      simp [GenericProperty.setValue, Property.notifyChanged, h]
    have hunfold : p.setValues up owner (val :: rest)
        = GenericProperty.setValues up { p with m_value := val } owner rest := by
      simp [GenericProperty.setValues, hstep]
    obtain ⟨h1, h2, h3⟩ := ih { p with m_value := val } owner h
    rw [hunfold]
    refine ⟨h1, ?_, h3⟩
    rw [h2]
    cases rest with
    | nil => rfl
    | cons b rest2 =>
      rw [List.getLast?_eq_getLast _ (List.cons_ne_nil b rest2)]
      rw [List.getLast?_eq_getLast _ (List.cons_ne_nil val (b :: rest2))]
      rfl

theorem agrees_start {T : Type} (m0 m1 m2 : T) (how : PropertyScalarConstraints.Construction T) :
    (PropertyScalarConstraints.Passed.start how).agrees (how.build m0 m1 m2) := by
  cases how with
  | defaultCtor => exact ⟨rfl, fun a h => (by cases h), fun b h => (by cases h)⟩
  | ctor minimum maximum singleStep =>
    exact ⟨rfl, fun a h => (by cases h; rfl), fun b h => (by cases h; rfl)⟩

theorem agrees_step {T : Type} (h : PropertyScalarConstraints.Passed T)
    (c : PropertyScalarConstraints T) (call : PropertyScalarConstraints.Setter T)
    (hc : h.agrees c) : (h.step call).agrees (c.apply call) := by
  obtain ⟨hen, hmin, hmax⟩ := hc
  cases call with
  | setConstraintsEnabled enable => exact ⟨rfl, hmin, hmax⟩
  | setMinimum val => exact ⟨hen, fun a ha => (by cases ha; rfl), hmax⟩
  | setMaximum val => exact ⟨hen, hmin, fun b hb => (by cases hb; rfl)⟩
  | setRange minVal maxVal =>
    exact ⟨hen, fun a ha => (by cases ha; rfl), fun b hb => (by cases hb; rfl)⟩
  | setSingleStep step => exact ⟨hen, hmin, hmax⟩

theorem agrees_applyAll {T : Type} :
    ∀ (calls : List (PropertyScalarConstraints.Setter T))
      (h : PropertyScalarConstraints.Passed T) (c : PropertyScalarConstraints T),
      h.agrees c → (calls.foldl PropertyScalarConstraints.Passed.step h).agrees (c.applyAll calls) := by
  intro calls
  induction calls with
  | nil => intro h c hc; exact hc
  | cons call rest ih =>
    intro h c hc
    exact ih (h.step call) (c.apply call) (agrees_step h c call hc)

/-! ## The claims on properties -/

/-- C5: when the owner is not suppressed, `setValue(a); setValue(a)` delivers
exactly two `onPropertyChanged` calls to the owner, one inside each call, and the
property handed to the owner already stores `a` each time; the same holds for
`setQuantity` on `GenericPropertyQuantity`. -/
theorem setValue_twice_notifies_twice {T Q ν μ : Type} (up : GenericProperty T → ν)
    (upQ : GenericPropertyQuantity Q → μ) (p : GenericProperty T)
    (q : GenericPropertyQuantity Q) (owner : PropertyOwner ν) (ownerQ : PropertyOwner μ)
    (a : T) (b : Q) (h : owner.suppressed = false) (hQ : ownerQ.suppressed = false) :
    ((p.setValue up owner a).1.value = a ∧
      (p.setValue up owner a).2.delivered
        = owner.delivered ++ [up (p.setValue up owner a).1] ∧
      ((p.setValue up owner a).1.setValue up (p.setValue up owner a).2 a).1.value = a ∧
      ((p.setValue up owner a).1.setValue up (p.setValue up owner a).2 a).2.delivered
        = owner.delivered ++ [up { p with m_value := a }, up { p with m_value := a }]) ∧
    ((q.setQuantity upQ ownerQ b).1.quantity = b ∧
      (q.setQuantity upQ ownerQ b).2.delivered
        = ownerQ.delivered ++ [upQ (q.setQuantity upQ ownerQ b).1] ∧
      ((q.setQuantity upQ ownerQ b).1.setQuantity upQ (q.setQuantity upQ ownerQ b).2 b).1.quantity
        = b ∧
      ((q.setQuantity upQ ownerQ b).1.setQuantity upQ (q.setQuantity upQ ownerQ b).2 b).2.delivered
        = ownerQ.delivered ++ [upQ { q with m_quantity := b }, upQ { q with m_quantity := b }]) := by
  simp [GenericProperty.setValue, GenericProperty.value, GenericPropertyQuantity.setQuantity,
    GenericPropertyQuantity.quantity, Property.notifyChanged, PropertyOwner.onPropertyChanged,
    h, hQ]

/-- C5 at a concrete property: an integer property holding 0 and a quantity
property holding 0, both set twice to 7, with owners that record the property
they are handed. -/
theorem setValue_twice_notifies_twice_witness :
    ((⟨"p", 0⟩ : GenericProperty Int).setValue id ⟨false, []⟩ 7).2.delivered = [⟨"p", 7⟩] ∧
    (((⟨"p", 0⟩ : GenericProperty Int).setValue id ⟨false, []⟩ 7).1.setValue id
        ((⟨"p", 0⟩ : GenericProperty Int).setValue id ⟨false, []⟩ 7).2 7).2.delivered
      = [⟨"p", 7⟩, ⟨"p", 7⟩] ∧
    (((⟨"q", 0⟩ : GenericPropertyQuantity Int).setQuantity id ⟨false, []⟩ 7).1.setQuantity id
        ((⟨"q", 0⟩ : GenericPropertyQuantity Int).setQuantity id ⟨false, []⟩ 7).2 7).2.delivered
      = [⟨"q", 7⟩, ⟨"q", 7⟩] :=
  have h := setValue_twice_notifies_twice id id (⟨"p", 0⟩ : GenericProperty Int)
    (⟨"q", 0⟩ : GenericPropertyQuantity Int) ⟨false, []⟩ ⟨false, []⟩ 7 7 rfl rfl
  ⟨h.1.2.1, h.1.2.2.2, h.2.2.2.2⟩

/-- C6: while a suppression scope on the owner is active, any number of
`setValue` calls on a property delivers no `onPropertyChanged` to the owner and
the property stores the last value set, inside the scope and after it ended;
when the scope ends notifications resume. The five `setValue` calls of the
`GpxMeshItem` constructor deliver no `onPropertyChanged`, so no call is made on
the representation, and the five properties hold the values read back from it. -/
theorem suppression_scope_delivers_nothing {T ν Color : Type} [PropertyDefault Color]
    (up : GenericProperty T → ν) (p : GenericProperty T) (owner : PropertyOwner ν)
    (vals : List T) (opts : Options Color) :
    ((p.setValues up (PropertyChangedBlocker.enter owner) vals).2.delivered = owner.delivered ∧
      (p.setValues up (PropertyChangedBlocker.enter owner) vals).1.value
        = vals.getLast?.getD p.value ∧
      (PropertyChangedBlocker.leave
        (p.setValues up (PropertyChangedBlocker.enter owner) vals).2).delivered
        = owner.delivered ∧
      (PropertyChangedBlocker.leave
        (p.setValues up (PropertyChangedBlocker.enter owner) vals).2).suppressed = false) ∧
    ((GpxMeshItem.ctor opts).owner.delivered = [] ∧
      (GpxMeshItem.ctor opts).viewerCalls = [] ∧
      (GpxMeshItem.ctor opts).owner.suppressed = false ∧
      (GpxMeshItem.ctor opts).propertyMaterial.value = opts.meshDefaultMaterial ∧
      (GpxMeshItem.ctor opts).propertyColor.value = opts.meshDefaultColor ∧
      (GpxMeshItem.ctor opts).propertyDisplayMode.value = MeshVS_DMF_Shading ∧
      (GpxMeshItem.ctor opts).propertyShowEdges.value = opts.meshDefaultShowEdges ∧
      (GpxMeshItem.ctor opts).propertyShowNodes.value = opts.meshDefaultShowNodes) := by
  obtain ⟨h1, h2, _⟩ :=
    setValues_suppressed up vals p (PropertyChangedBlocker.enter owner) rfl
  refine ⟨⟨?_, h2, ?_, rfl⟩, ?_⟩
  · rw [h1]; rfl
  · rw [h1]; rfl
  · simp [GpxMeshItem.ctor, GpxMeshItem.viewerCalls, GenericProperty.setValue,
      GenericProperty.value, Property.notifyChanged, PropertyChangedBlocker.enter,
      PropertyChangedBlocker.leave]

/-- C7: for every scalar property, every constraint state and every value `v`,
after `setValue(v)` the getter `value()` returns exactly `v` and the constraint
fields are unchanged. -/
theorem setValue_never_clamps {T ν : Type} (up : GenericScalarProperty T → ν)
    (p : GenericScalarProperty T) (owner : PropertyOwner ν) (v : T) :
    (p.setValue up owner v).1.toGenericProperty.value = v ∧
    (p.setValue up owner v).1.toPropertyScalarConstraints = p.toPropertyScalarConstraints := by
  simp [GenericScalarProperty.setValue, GenericProperty.setValue, GenericProperty.value]

/-- C8, as stated, fails: the three-argument constructor called with minimum 5
and maximum 1 yields enabled constraints with minimum above maximum, and so does
`setMinimum(20)` after constructing with the range 0..10. -/
theorem constraints_invariant_counterexample :
    ((PropertyScalarConstraints.ctor (5 : Int) 1 1).constraintsEnabled = true ∧
      ¬ (PropertyScalarConstraints.ctor (5 : Int) 1 1).minimum
          ≤ (PropertyScalarConstraints.ctor (5 : Int) 1 1).maximum) ∧
    (((PropertyScalarConstraints.ctor (0 : Int) 10 1).applyAll
          [.setMinimum 20]).constraintsEnabled = true ∧
      ¬ ((PropertyScalarConstraints.ctor (0 : Int) 10 1).applyAll [.setMinimum 20]).minimum
          ≤ ((PropertyScalarConstraints.ctor (0 : Int) 10 1).applyAll
              [.setMinimum 20]).maximum) := by
  decide

/-- C8, amended: for every value reached from either constructor by any sequence
of `setConstraintsEnabled`, `setMinimum`, `setMaximum`, `setRange` and
`setSingleStep` calls, `constraintsEnabled()` is the flag last passed and
`minimum()`, `maximum()` are the bounds last passed (to the three-argument
constructor, `setMinimum`, `setMaximum` or `setRange`), stored unchecked. So if
the caller's last bounds are ordered whenever its last flag is `true`, then
`constraintsEnabled()` implies `minimum() ≤ maximum()`, whatever happened in
between; and once both bounds have been passed this is the only case in which
the implication holds. -/
theorem constraints_ordered_iff_passed_ordered {T : Type} [LE T] (m0 m1 m2 : T)
    (how : PropertyScalarConstraints.Construction T)
    (calls : List (PropertyScalarConstraints.Setter T)) :
    (PropertyScalarConstraints.Passed.after how calls).agrees
      ((how.build m0 m1 m2).applyAll calls) ∧
    ((PropertyScalarConstraints.Passed.after how calls).ordered →
      ((how.build m0 m1 m2).applyAll calls).constraintsEnabled = true →
      ((how.build m0 m1 m2).applyAll calls).minimum
        ≤ ((how.build m0 m1 m2).applyAll calls).maximum) ∧
    (∀ a b, (PropertyScalarConstraints.Passed.after how calls).minimum = some a →
      (PropertyScalarConstraints.Passed.after how calls).maximum = some b →
      ((((how.build m0 m1 m2).applyAll calls).constraintsEnabled = true →
          ((how.build m0 m1 m2).applyAll calls).minimum
            ≤ ((how.build m0 m1 m2).applyAll calls).maximum) ↔
        (PropertyScalarConstraints.Passed.after how calls).ordered)) := by
  have hagree := agrees_applyAll calls _ _ (agrees_start m0 m1 m2 how)
  refine ⟨hagree, ?_, ?_⟩
  · intro hord hen
    obtain ⟨hflag, hmin, hmax⟩ := hagree
    obtain ⟨a, b, ha, hb, hab⟩ := hord (hflag ▸ hen)
    rw [hmin a ha, hmax b hb]
    exact hab
  · intro a b ha hb
    obtain ⟨hflag, hmin, hmax⟩ := hagree
    constructor
    · intro himp hen
      have hle := himp (hflag.trans hen)
      rw [hmin a ha, hmax b hb] at hle
      exact ⟨a, b, ha, hb, hle⟩
    · intro hord hen
      obtain ⟨a1, b1, ha1, hb1, hab⟩ := hord (hflag ▸ hen)
      rw [hmin a1 ha1, hmax b1 hb1]
      exact hab

/-- C8, amended, at two concrete call sequences: on the range 0..10 the bounds
are disordered by `setMinimum(20)` while enabled, then disabled, set to 2..3 and
enabled again; a default-constructed object is given the range 2..3 and enabled. -/
theorem constraints_ordered_iff_passed_ordered_witness :
    (((PropertyScalarConstraints.ctor (0 : Int) 10 1).applyAll
          [.setMinimum 20, .setConstraintsEnabled false, .setRange 2 3,
           .setConstraintsEnabled true]).constraintsEnabled = true ∧
      ((PropertyScalarConstraints.ctor (0 : Int) 10 1).applyAll
          [.setMinimum 20, .setConstraintsEnabled false, .setRange 2 3,
           .setConstraintsEnabled true]).minimum
        ≤ ((PropertyScalarConstraints.ctor (0 : Int) 10 1).applyAll
          [.setMinimum 20, .setConstraintsEnabled false, .setRange 2 3,
           .setConstraintsEnabled true]).maximum) ∧
    (((PropertyScalarConstraints.defaultCtor (7 : Int) 4 0).applyAll
          [.setRange 2 3, .setConstraintsEnabled true]).constraintsEnabled = true ∧
      ((PropertyScalarConstraints.defaultCtor (7 : Int) 4 0).applyAll
          [.setRange 2 3, .setConstraintsEnabled true]).minimum
        ≤ ((PropertyScalarConstraints.defaultCtor (7 : Int) 4 0).applyAll
          [.setRange 2 3, .setConstraintsEnabled true]).maximum) :=
  ⟨⟨by decide,
      (constraints_ordered_iff_passed_ordered (0 : Int) 0 0 (.ctor 0 10 1)
        [.setMinimum 20, .setConstraintsEnabled false, .setRange 2 3,
         .setConstraintsEnabled true]).2.1
        (fun _ => ⟨2, 3, rfl, rfl, by decide⟩) (by decide)⟩,
    ⟨by decide,
      (constraints_ordered_iff_passed_ordered (7 : Int) 4 0 .defaultCtor
        [.setRange 2 3, .setConstraintsEnabled true]).2.1
        (fun _ => ⟨2, 3, rfl, rfl, by decide⟩) (by decide)⟩⟩

/-- C9: for constraints that are enabled and every `minVal ≤ maxVal`, after
`setRange(minVal, maxVal)` the getters return `minimum() == minVal` and
`maximum() == maxVal`, hence `minimum() ≤ maximum()`; `constraintsEnabled()` and
`singleStep()` are unchanged; and `setRange` equals `setMinimum(minVal)` followed
by `setMaximum(maxVal)`. -/
theorem setRange_postcondition {T : Type} [LE T] (c : PropertyScalarConstraints T)
    (minVal maxVal : T) (hen : c.constraintsEnabled = true) (h : minVal ≤ maxVal) :
    (c.setRange minVal maxVal).minimum = minVal ∧
    (c.setRange minVal maxVal).maximum = maxVal ∧
    (c.setRange minVal maxVal).minimum ≤ (c.setRange minVal maxVal).maximum ∧
    (c.setRange minVal maxVal).constraintsEnabled = true ∧
    (c.setRange minVal maxVal).constraintsEnabled = c.constraintsEnabled ∧
    (c.setRange minVal maxVal).singleStep = c.singleStep ∧
    c.setRange minVal maxVal = (c.setMinimum minVal).setMaximum maxVal :=
  ⟨rfl, rfl, h, hen, rfl, rfl, rfl⟩

/-- C9 at a concrete range: constraints 0..10 narrowed to 2..3. -/
theorem setRange_postcondition_witness :
    (PropertyScalarConstraints.ctor (0 : Int) 10 1).constraintsEnabled = true ∧
    (2 : Int) ≤ 3 ∧
    ((PropertyScalarConstraints.ctor (0 : Int) 10 1).setRange 2 3).minimum = 2 ∧
    ((PropertyScalarConstraints.ctor (0 : Int) 10 1).setRange 2 3).maximum = 3 ∧
    ((PropertyScalarConstraints.ctor (0 : Int) 10 1).setRange 2 3).minimum
      ≤ ((PropertyScalarConstraints.ctor (0 : Int) 10 1).setRange 2 3).maximum ∧
    ((PropertyScalarConstraints.ctor (0 : Int) 10 1).setRange 2 3).constraintsEnabled = true ∧
    ((PropertyScalarConstraints.ctor (0 : Int) 10 1).setRange 2 3).constraintsEnabled
      = (PropertyScalarConstraints.ctor (0 : Int) 10 1).constraintsEnabled ∧
    ((PropertyScalarConstraints.ctor (0 : Int) 10 1).setRange 2 3).singleStep
      = (PropertyScalarConstraints.ctor (0 : Int) 10 1).singleStep ∧
    (PropertyScalarConstraints.ctor (0 : Int) 10 1).setRange 2 3
      = ((PropertyScalarConstraints.ctor (0 : Int) 10 1).setMinimum 2).setMaximum 3 :=
  ⟨rfl, by decide,
    setRange_postcondition (PropertyScalarConstraints.ctor (0 : Int) 10 1) 2 3 rfl (by decide)⟩

/-- C10: on every scalar property, `setConstraintsEnabled(b)` leaves `value()`,
`minimum()`, `maximum()` and `singleStep()` unchanged and sets
`constraintsEnabled()` to `b`; every constraint setter (`setConstraintsEnabled`,
`setMinimum`, `setMaximum`, `setRange`, `setSingleStep`) leaves `value()` and the
label unchanged and delivers no notification to the owner. -/
theorem constraint_setters_keep_value {T ν : Type} (p : GenericScalarProperty T)
    (owner : PropertyOwner ν) (b : Bool) (call : PropertyScalarConstraints.Setter T) :
    ((p.callSetter owner (.setConstraintsEnabled b)).1.toGenericProperty.value
        = p.toGenericProperty.value ∧
      (p.callSetter owner (.setConstraintsEnabled b)).1.minimum = p.minimum ∧
      (p.callSetter owner (.setConstraintsEnabled b)).1.maximum = p.maximum ∧
      (p.callSetter owner (.setConstraintsEnabled b)).1.singleStep = p.singleStep ∧
      (p.callSetter owner (.setConstraintsEnabled b)).1.constraintsEnabled = b) ∧
    ((p.callSetter owner call).1.toGenericProperty = p.toGenericProperty ∧
      (p.callSetter owner call).1.toGenericProperty.value = p.toGenericProperty.value ∧
      (p.callSetter owner call).2.delivered = owner.delivered) :=
  ⟨⟨rfl, rfl, rfl, rfl, rfl⟩, rfl, rfl, rfl⟩

/-! ## Lemmas on selection -/

theorem find?_eq_some_iff_first_index {α : Type} (p : α → Bool) :
    ∀ (l : List α) (a : α),
      l.find? p = some a ↔
        ∃ i : Nat, l[i]? = some a ∧ p a = true ∧
          ∀ j : Nat, j < i → ∀ b, l[j]? = some b → p b = false := by
  intro l
  induction l with
  | nil => intro a; simp
  | cons c rest ih =>
    intro a
    by_cases hc : p c = true
    · rw [List.find?_cons_of_pos _ hc]
      constructor
      · intro h
        cases h
        exact ⟨0, List.getElem?_cons_zero, hc, fun j hj => absurd hj (Nat.not_lt_zero j)⟩
      · rintro ⟨i, hi, _, hmin⟩
        cases i with
        | zero => simpa using hi
        | succ k =>
          have := hmin 0 (Nat.succ_pos k) c List.getElem?_cons_zero
          rw [hc] at this
          cases this
    · rw [List.find?_cons_of_neg _ hc, ih a]
      constructor
      · rintro ⟨i, hi, hp, hmin⟩
        refine ⟨i + 1, by simpa using hi, hp, ?_⟩
        intro j hj b hb
        cases j with
        | zero =>
          have hbc : c = b := by simpa using hb
          rw [← hbc]
          simpa using hc
        | succ k => exact hmin k (Nat.lt_of_succ_lt_succ hj) b (by simpa using hb)
      · rintro ⟨i, hi, hp, hmin⟩
        cases i with
        | zero =>
          have hca : c = a := by simpa using hi
          rw [hca] at hc
          exact absurd hp hc
        | succ k =>
          refine ⟨k, by simpa using hi, hp, ?_⟩
          intro j hj b hb
          exact hmin (j + 1) (Nat.succ_lt_succ hj) b (by simpa using hb)

theorem isBrepOwnerOf_iff (face : Nat) (owner : EntityOwner) :
    GuiDocumentItem.isBrepOwnerOf face owner = true ↔ owner.brepShape = some face := by
  unfold GuiDocumentItem.isBrepOwnerOf
  cases owner.brepShape with
  | none => simp
  | some shape => simp

theorem mem_AddOrRemoveSelected {Box : Type} (ctx : AisContext Box) (owner x : Nat) :
    decide (x ∈ (ctx.AddOrRemoveSelected owner).selected)
      = xor (decide (x ∈ ctx.selected)) (decide (x = owner)) := by
  unfold AisContext.AddOrRemoveSelected
  by_cases hmem : owner ∈ ctx.selected
  · by_cases hx : x = owner
    · subst hx
      simp [hmem]
    · simp [hmem, hx]
  · by_cases hx : x = owner
    · subst hx
      simp [hmem]
    · simp [hmem, hx]

theorem mem_toggleAll {Box : Type} :
    ∀ (owners : List Nat), ∃ flips : Nat → Bool, ∀ (ctx : AisContext Box) (x : Nat),
      decide (x ∈ (ctx.toggleAll owners).selected) = xor (decide (x ∈ ctx.selected)) (flips x) := by
  intro owners
  induction owners with
  | nil => exact ⟨fun _ => false, fun ctx x => by simp [AisContext.toggleAll]⟩
  | cons owner rest ih =>
    obtain ⟨flips, hflips⟩ := ih
    refine ⟨fun x => xor (decide (x = owner)) (flips x), ?_⟩
    intro ctx x
    show decide (x ∈ ((ctx.AddOrRemoveSelected owner).toggleAll rest).selected) = _
    rw [hflips, mem_AddOrRemoveSelected, Bool.xor_assoc]

theorem mem_toggleAll_twice {Box : Type} (ctx : AisContext Box) (owners : List Nat) (x : Nat) :
    x ∈ ((ctx.toggleAll owners).toggleAll owners).selected ↔ x ∈ ctx.selected := by
  obtain ⟨flips, hflips⟩ := @mem_toggleAll Box owners
  have h := hflips (ctx.toggleAll owners) x
  rw [hflips ctx x] at h
  have h2 : decide (x ∈ ((ctx.toggleAll owners).toggleAll owners).selected)
      = decide (x ∈ ctx.selected) := by
    rw [h]
    cases decide (x ∈ ctx.selected) <;> cases flips x <;> rfl
  simpa using h2

theorem toggleFaces_eq_toggleAll {Box : Type} (guiItem : GuiDocumentItem Box) :
    ∀ (faces : List Nat) (ctx : AisContext Box),
      GuiDocument.toggleFaces guiItem ctx faces
        = ctx.toggleAll (faces.filterMap
            (fun face => (guiItem.findBrepOwner face).map (fun brepOwner => brepOwner.handle))) := by
  intro faces
  induction faces with
  | nil => intro ctx; rfl
  | cons face rest ih =>
    intro ctx
    cases hfind : guiItem.findBrepOwner face with
    | none => simp [GuiDocument.toggleFaces, hfind, ih]
    | some brepOwner => simp [GuiDocument.toggleFaces, hfind, ih, AisContext.toggleAll]

theorem toggleRootItems_eq_toggleAll {Box : Type} (s : GuiDocument Box) :
    ∀ (items : List DocumentItem) (ctx : AisContext Box),
      GuiDocument.toggleRootItems s ctx items
        = ctx.toggleAll (items.filterMap
            (fun docItem => (s.findItemGpx docItem).map
              (fun gpxItem => gpxItem.handleGpxObject.addr))) := by
  intro items
  induction items with
  | nil => intro ctx; rfl
  | cons docItem rest ih =>
    intro ctx
    cases hfind : s.findItemGpx docItem with
    | none => simp [GuiDocument.toggleRootItems, hfind, ih]
    | some gpxItem => simp [GuiDocument.toggleRootItems, hfind, ih, AisContext.toggleAll]

theorem toggleItemSelected_eq_toggleAll {Box : Type} (d : Documents) (document : Nat)
    (s : GuiDocument Box) (appItem : ApplicationItem) :
    GuiDocument.toggleItemSelected d document s appItem
      = { s with m_aisContext :=
            s.m_aisContext.toggleAll (GuiDocument.toggledOwners d document s appItem) } := by
  unfold GuiDocument.toggleItemSelected GuiDocument.toggledOwners
  by_cases hdoc : appItem.document ≠ document
  · rw [if_pos hdoc, if_pos hdoc]
    rfl
  · rw [if_neg hdoc, if_neg hdoc]
    cases appItem.target with
    | xdeAssemblyNode xdeAsmNode =>
      dsimp only
      cases s.findGuiDocumentItem xdeAsmNode.ownerDocItem with
      | none => rfl
      | some guiItem =>
        dsimp only
        rw [toggleFaces_eq_toggleAll]
    | documentItem item =>
      dsimp only
      cases s.findItemGpx item with
      | none => rfl
      | some gpxItem => rfl
    | document =>
      dsimp only
      rw [toggleRootItems_eq_toggleAll]
    | invalid => rfl

theorem toggledOwners_congr {Box : Type} (d : Documents) (document : Nat)
    (s s1 : GuiDocument Box) (appItem : ApplicationItem)
    (h : s1.m_vecGuiDocumentItem = s.m_vecGuiDocumentItem) :
    GuiDocument.toggledOwners d document s1 appItem
      = GuiDocument.toggledOwners d document s appItem := by
  have hfind : ∀ item, s1.findGuiDocumentItem item = s.findGuiDocumentItem item := by
    intro item
    simp [GuiDocument.findGuiDocumentItem, h]
  have hgpx : ∀ item, s1.findItemGpx item = s.findItemGpx item := by
    intro item
    simp [GuiDocument.findItemGpx, hfind]
  simp [GuiDocument.toggledOwners, hfind, hgpx]

theorem isBrepOwnerOf_eq_false_iff (face : Nat) (owner : EntityOwner) :
    GuiDocumentItem.isBrepOwnerOf face owner = false ↔ owner.brepShape ≠ some face := by
  constructor
  · intro h hshape
    rw [(isBrepOwnerOf_iff face owner).mpr hshape] at h
    cases h
  · intro h
    cases hb : GuiDocumentItem.isBrepOwnerOf face owner with
    | false => rfl
    | true => exact absurd ((isBrepOwnerOf_iff face owner).mp hb) h

/-! ## The claims on type names, selection and proxy dispatch -/

/-- C11: the sixteen `TypeName` strings are pairwise distinct (two property
classes have the same `TypeName` only when they are the same class), and
`dynTypeName()` of an instance returns the `TypeName` of its class before and
after any `setValue`, `setQuantity` or constraint-setter call. -/
theorem TypeName_injective_and_stable {T Q ν : Type} (a b cls : PropertyClass)
    (p : GenericProperty T) (sp : GenericScalarProperty T) (q : GenericPropertyQuantity Q)
    (up : GenericProperty T → ν) (upS : GenericScalarProperty T → ν)
    (upQ : GenericPropertyQuantity Q → ν) (owner : PropertyOwner ν) (v : T) (qty : Q)
    (call : PropertyScalarConstraints.Setter T) :
    (a.TypeName = b.TypeName ↔ a = b) ∧
    (PropertyClass.all.map PropertyClass.TypeName).Nodup ∧
    PropertyClass.all.length = 16 ∧ a ∈ PropertyClass.all ∧
    (p.dynTypeName cls = cls.TypeName ∧
      (p.setValue up owner v).1.dynTypeName cls = p.dynTypeName cls) ∧
    (sp.dynTypeName cls = cls.TypeName ∧
      (sp.setValue upS owner v).1.dynTypeName cls = sp.dynTypeName cls ∧
      (sp.callSetter owner call).1.dynTypeName cls = sp.dynTypeName cls) ∧
    (q.dynTypeName cls = cls.TypeName ∧
      (q.setQuantity upQ owner qty).1.dynTypeName cls = q.dynTypeName cls) := by
  refine ⟨?_, by decide, rfl, ?_, ⟨rfl, rfl⟩, ⟨rfl, rfl, rfl⟩, ⟨rfl, rfl⟩⟩
  · constructor
    · intro h
      cases a <;> cases b <;> first | rfl | (exact absurd h (by decide))
    · intro h
      rw [h]
  · cases a <;> decide

/-- C12: for every registry state, current selection and application item,
calling `toggleItemSelected` twice leaves the selection with the members it had
(with `AddOrRemoveSelected` a membership toggle), and neither call changes the
entry list or the bounding box. -/
theorem toggleItemSelected_twice {Box : Type} (d : Documents) (document : Nat)
    (s : GuiDocument Box) (appItem : ApplicationItem) :
    (∀ x, x ∈ (GuiDocument.toggleItemSelected d document
            (GuiDocument.toggleItemSelected d document s appItem) appItem).m_aisContext.selected
        ↔ x ∈ s.m_aisContext.selected) ∧
    (GuiDocument.toggleItemSelected d document s appItem).m_vecGuiDocumentItem
      = s.m_vecGuiDocumentItem ∧
    (GuiDocument.toggleItemSelected d document s appItem).m_gpxBoundingBox
      = s.m_gpxBoundingBox ∧
    (GuiDocument.toggleItemSelected d document
        (GuiDocument.toggleItemSelected d document s appItem) appItem).m_vecGuiDocumentItem
      = s.m_vecGuiDocumentItem ∧
    (GuiDocument.toggleItemSelected d document
        (GuiDocument.toggleItemSelected d document s appItem) appItem).m_gpxBoundingBox
      = s.m_gpxBoundingBox := by
  have h1 := toggleItemSelected_eq_toggleAll d document s appItem
  have h2 := toggleItemSelected_eq_toggleAll d document
    (GuiDocument.toggleItemSelected d document s appItem) appItem
  have hvec : (GuiDocument.toggleItemSelected d document s appItem).m_vecGuiDocumentItem
      = s.m_vecGuiDocumentItem := by rw [h1]
  have hbox : (GuiDocument.toggleItemSelected d document s appItem).m_gpxBoundingBox
      = s.m_gpxBoundingBox := by rw [h1]
  rw [toggledOwners_congr d document s _ appItem hvec] at h2
  refine ⟨?_, hvec, hbox, ?_, ?_⟩
  · intro x
    rw [h2]
    show x ∈ ((GuiDocument.toggleItemSelected d document s appItem).m_aisContext.toggleAll
        (GuiDocument.toggledOwners d document s appItem)).selected ↔ _
    rw [h1]
    exact mem_toggleAll_twice s.m_aisContext _ x
  · rw [h2]
    exact hvec
  · rw [h2]
    exact hbox

/-- C12, the scenario: item 1 is registered with face owners and nothing is
selected; toggling its face 100 selects the owner of that face, toggling it again
ends with an empty selection. -/
theorem toggleItemSelected_twice_witness :
    sampleRegistry.m_aisContext.selected = [] ∧
    (GuiDocument.toggleItemSelected sampleDocuments 5 sampleRegistry
        ⟨5, .xdeAssemblyNode ⟨1, 1⟩⟩).m_aisContext.selected = [10] ∧
    (GuiDocument.toggleItemSelected sampleDocuments 5
        (GuiDocument.toggleItemSelected sampleDocuments 5 sampleRegistry
          ⟨5, .xdeAssemblyNode ⟨1, 1⟩⟩)
        ⟨5, .xdeAssemblyNode ⟨1, 1⟩⟩).m_aisContext.selected = [] ∧
    (∀ x, x ∈ (GuiDocument.toggleItemSelected sampleDocuments 5
            (GuiDocument.toggleItemSelected sampleDocuments 5 sampleRegistry
              ⟨5, .xdeAssemblyNode ⟨1, 1⟩⟩)
            ⟨5, .xdeAssemblyNode ⟨1, 1⟩⟩).m_aisContext.selected
        ↔ x ∈ sampleRegistry.m_aisContext.selected) :=
  ⟨by decide, by decide, by decide,
    (toggleItemSelected_twice sampleDocuments 5 sampleRegistry ⟨5, .xdeAssemblyNode ⟨1, 1⟩⟩).1⟩

/-- C13: `createGpxForItem` yields a proxy of class `GpxXdeDocumentItem` built from
the item for an `XdeDocumentItem`, one of class `GpxMeshItem` for a `MeshItem`
and null for any other item; of the two calls in the chain at most one invokes a
constructor; a call that finds `*gpx` already set invokes none and leaves it
unchanged, whatever the item; and the result is null exactly when the item
matches no variant. -/
theorem createGpxForItem_selects_one_variant {Box : Type} (w : World Box) (addr : Nat)
    (item : DocumentItem) (kind : ItemKind) (variant : GpxVariant)
    (created : GpxDocumentItem Box) :
    Internal.createGpxForItem w addr item
      = (match w.dynType item with
        | .xdeDocumentItem => some (GpxDocumentItem.new w .gpxXdeDocumentItem addr item)
        | .meshItem => some (GpxDocumentItem.new w .gpxMeshItem addr item)
        | .other _ => none) ∧
    (Internal.createGpxForItem w addr item).map (fun gpx => gpx.variant)
      = (match w.dynType item with
        | .xdeDocumentItem => some .gpxXdeDocumentItem
        | .meshItem => some .gpxMeshItem
        | .other _ => none) ∧
    (∀ gpx, Internal.createGpxForItem w addr item = some gpx →
      gpx.item = item ∧ gpx.handleGpxObject.source = item ∧
      gpx.handleGpxObject.addr = addr ∧ BndUtils.get gpx.handleGpxObject = w.aisBox item) ∧
    ¬ ((Internal.createGpxIfItemOfType w .xdeDocumentItem .gpxXdeDocumentItem addr
          none item).2 = true ∧
        (Internal.createGpxIfItemOfType w .meshItem .gpxMeshItem addr
          (Internal.createGpxIfItemOfType w .xdeDocumentItem .gpxXdeDocumentItem addr
            none item).1 item).2 = true) ∧
    Internal.createGpxIfItemOfType w kind variant addr (some created) item
      = (some created, false) ∧
    ((Internal.createGpxIfItemOfType w kind variant addr none item).1.map
        (fun gpx => gpx.variant)
      = if w.dynType item = kind then some variant else none) ∧
    (Internal.createGpxForItem w addr item = none ↔
      (w.dynType item ≠ .xdeDocumentItem ∧ w.dynType item ≠ .meshItem)) := by
  refine ⟨?_, ?_, ?_, ?_, ?_, ?_, ?_⟩
  · cases h : w.dynType item <;>
      simp [Internal.createGpxForItem, Internal.createGpxIfItemOfType, sameType, h]
  · cases h : w.dynType item <;>
      simp [Internal.createGpxForItem, Internal.createGpxIfItemOfType, sameType, h,
        GpxDocumentItem.new]
  · intro gpx hgpx
    cases h : w.dynType item <;>
      simp [Internal.createGpxForItem, Internal.createGpxIfItemOfType, sameType, h] at hgpx <;>
      subst hgpx <;>
      exact ⟨rfl, rfl, rfl, rfl⟩
  · cases h : w.dynType item <;>
      simp [Internal.createGpxIfItemOfType, sameType, h]
  · simp [Internal.createGpxIfItemOfType]
  · by_cases h : w.dynType item = kind <;>
      simp [Internal.createGpxIfItemOfType, sameType, h, GpxDocumentItem.new]
  · cases h : w.dynType item <;>
      simp [Internal.createGpxForItem, Internal.createGpxIfItemOfType, sameType, h]

/-- C13 on the sample document: item 1 (an `XdeDocumentItem`) gets a
`GpxXdeDocumentItem`, item 2 (a `MeshItem`) gets a `GpxMeshItem`, item 9 (another
kind) gets null. -/
theorem createGpxForItem_selects_one_variant_witness :
    Internal.createGpxForItem sampleWorld 0 1
      = some ⟨.gpxXdeDocumentItem, 1, ⟨0, 1, .corners 0 0 0 1 1 1⟩⟩ ∧
    Internal.createGpxForItem sampleWorld 0 2
      = some ⟨.gpxMeshItem, 2, ⟨0, 2, .corners 2 2 2 3 3 3⟩⟩ ∧
    Internal.createGpxForItem sampleWorld 0 9 = none ∧
    (Internal.createGpxForItem sampleWorld 0 2).map (fun gpx => gpx.variant)
      = (match sampleWorld.dynType 2 with
        | .xdeDocumentItem => some .gpxXdeDocumentItem
        | .meshItem => some .gpxMeshItem
        | .other _ => none) :=
  ⟨by decide, by decide, by decide,
    (createGpxForItem_selects_one_variant sampleWorld 0 2 .meshItem .gpxMeshItem
      ⟨.gpxMeshItem, 2, ⟨0, 2, .corners 2 2 2 3 3 3⟩⟩).2.1⟩

/-- C14, as stated, fails in its last clause: in the sequence below an owner
entry (the first one) is not of the BRep-owner kind, yet `findBrepOwner(100)` does
not return the null handle: it skips that entry and returns the owner behind it. -/
theorem findBrepOwner_foreign_entry_counterexample :
    (∃ owner ∈ [(⟨9, none⟩ : EntityOwner), ⟨10, some 100⟩, ⟨12, some 100⟩],
      owner.brepShape = none) ∧
    GuiDocumentItem.findBrepOwner
        (⟨1, none, [⟨9, none⟩, ⟨10, some 100⟩, ⟨12, some 100⟩]⟩ : GuiDocumentItem Bnd_Box) 100
      = some ⟨10, some 100⟩ ∧
    GuiDocumentItem.findBrepOwner
        (⟨1, none, [⟨9, none⟩, ⟨10, some 100⟩, ⟨12, some 100⟩]⟩ : GuiDocumentItem Bnd_Box) 100
      ≠ none := by
  refine ⟨⟨⟨9, none⟩, by decide, rfl⟩, by decide, by decide⟩

/-- C14, amended: `findBrepOwner(f)` returns an owner exactly when it stands at the
smallest index whose owner is of the BRep-owner kind with `Shape()` equal to `f`;
it returns the null handle exactly when no owner of the sequence is a BRep owner
of `f`; and owner entries that are not of the BRep-owner kind are skipped: the
result is the one of the scan that starts behind them. -/
theorem findBrepOwner_first_match {Box : Type} (guiItem : GuiDocumentItem Box) (face : Nat) :
    (∀ owner, guiItem.findBrepOwner face = some owner ↔
      ∃ i : Nat, guiItem.vecGpxEntityOwner[i]? = some owner ∧ owner.brepShape = some face ∧
        ∀ j : Nat, j < i → ∀ other, guiItem.vecGpxEntityOwner[j]? = some other →
          other.brepShape ≠ some face) ∧
    (guiItem.findBrepOwner face = none ↔
      ∀ owner ∈ guiItem.vecGpxEntityOwner, owner.brepShape ≠ some face) ∧
    (∀ foreign rest, guiItem.vecGpxEntityOwner = foreign ++ rest →
      (∀ owner ∈ foreign, owner.brepShape = none) →
      guiItem.findBrepOwner face
        = GuiDocumentItem.findBrepOwner { guiItem with vecGpxEntityOwner := rest } face) := by
  have hnone : guiItem.findBrepOwner face = none ↔
      ∀ owner ∈ guiItem.vecGpxEntityOwner, owner.brepShape ≠ some face := by
    unfold GuiDocumentItem.findBrepOwner
    rw [List.find?_eq_none]
    constructor
    · intro h owner hmem
      exact (isBrepOwnerOf_eq_false_iff face owner).mp (by simpa using h owner hmem)
    · intro h owner hmem
      have := (isBrepOwnerOf_eq_false_iff face owner).mpr (h owner hmem)
      simp [this]
  refine ⟨?_, hnone, ?_⟩
  · intro owner
    unfold GuiDocumentItem.findBrepOwner
    rw [find?_eq_some_iff_first_index]
    constructor
    · rintro ⟨i, hi, hp, hmin⟩
      refine ⟨i, hi, (isBrepOwnerOf_iff face owner).mp hp, ?_⟩
      intro j hj other hother
      exact (isBrepOwnerOf_eq_false_iff face other).mp (hmin j hj other hother)
    · rintro ⟨i, hi, hp, hmin⟩
      refine ⟨i, hi, (isBrepOwnerOf_iff face owner).mpr hp, ?_⟩
      intro j hj other hother
      exact (isBrepOwnerOf_eq_false_iff face other).mpr (hmin j hj other hother)
  · intro foreign rest hvec hforeign
    unfold GuiDocumentItem.findBrepOwner
    rw [hvec]
    show (foreign ++ rest).find? (GuiDocumentItem.isBrepOwnerOf face)
      = rest.find? (GuiDocumentItem.isBrepOwnerOf face)
    clear hvec
    induction foreign with
    | nil => rfl
    | cons owner others ih =>
      have hkind := hforeign owner (List.mem_cons_self _ _)
      have hskip : ¬ GuiDocumentItem.isBrepOwnerOf face owner = true := by
        intro hp
        rw [(isBrepOwnerOf_iff face owner).mp hp] at hkind
        cases hkind
      rw [List.cons_append, List.find?_cons_of_neg _ hskip]
      exact ih (fun o ho => hforeign o (List.mem_cons_of_mem _ ho))

/-- C14, amended, at a concrete owner sequence: an owner that is not a BRep owner,
then two BRep owners of face 100. The lookup of face 100 skips the first entry
and returns the first BRep owner of it, as the scan of the two last entries does;
the lookup of face 7 returns the null handle. -/
theorem findBrepOwner_first_match_witness :
    GuiDocumentItem.findBrepOwner
        (⟨1, none, [⟨9, none⟩, ⟨10, some 100⟩, ⟨12, some 100⟩]⟩ : GuiDocumentItem Bnd_Box) 100
      = some ⟨10, some 100⟩ ∧
    GuiDocumentItem.findBrepOwner
        (⟨1, none, [⟨9, none⟩, ⟨10, some 100⟩, ⟨12, some 100⟩]⟩ : GuiDocumentItem Bnd_Box) 7
      = none ∧
    (GuiDocumentItem.findBrepOwner
        (⟨1, none, [⟨9, none⟩, ⟨10, some 100⟩, ⟨12, some 100⟩]⟩ : GuiDocumentItem Bnd_Box) 7
      = none ↔
      ∀ owner ∈ [(⟨9, none⟩ : EntityOwner), ⟨10, some 100⟩, ⟨12, some 100⟩],
        owner.brepShape ≠ some 7) ∧
    GuiDocumentItem.findBrepOwner
        (⟨1, none, [⟨9, none⟩, ⟨10, some 100⟩, ⟨12, some 100⟩]⟩ : GuiDocumentItem Bnd_Box) 100
      = GuiDocumentItem.findBrepOwner
        (⟨1, none, [⟨10, some 100⟩, ⟨12, some 100⟩]⟩ : GuiDocumentItem Bnd_Box) 100 :=
  ⟨by decide, by decide,
    (findBrepOwner_first_match
      (⟨1, none, [⟨9, none⟩, ⟨10, some 100⟩, ⟨12, some 100⟩]⟩ : GuiDocumentItem Bnd_Box) 7).2.1,
    (findBrepOwner_first_match
      (⟨1, none, [⟨9, none⟩, ⟨10, some 100⟩, ⟨12, some 100⟩]⟩ : GuiDocumentItem Bnd_Box) 100).2.2
      [⟨9, none⟩] [⟨10, some 100⟩, ⟨12, some 100⟩] rfl (by decide)⟩

end Mayo
